import Mathlib

/-!
# Top-down survival game: entity-component store, entity registry and frame systems

A shallow embedding of `include/ecs.hpp` and `src/game.cpp`.

* `Entity` is `std::size_t`; ids are taken as unbounded naturals.
* `float` is idealised as an arbitrary linear ordered field `F` (exact arithmetic); a
  float literal is the value of the binary32 number it denotes (`0.0001f` is
  `13743895 / 2 ^ 37`, a little below `1 / 10000`);
  `std::sqrt` is a parameter of the systems that call it, so that the definitions can be
  evaluated over `ℚ` and reasoned about over `ℝ` with `Real.sqrt`.
* A float division has a value only for a non-zero divisor (`Vector2f.divide?`): dividing
  by zero yields an infinity or NaN, for which the exact model has no value, so the code
  that divides returns an `Option` (`updateEnemyAIStep?`).
* `int` (`Health::hp`) is taken without overflow.
* `std::unordered_map<std::type_index, std::unordered_map<Entity, std::any>>` is a function
  from the component kind to an optional inner map (`none`: the outer map has no entry for
  that kind), the inner map being a function from entity ids to optional values.
* A pointer returned by `getComponent` is modelled by the value it points to; an assignment
  through it is a replacement of the stored value (`ComponentManager.assign`).
-/

namespace SurvivalGame

/-! ## Data model (`ecs.hpp`) -/

/-- Entity is just an ID. -/
abbrev Entity := Nat

/-- Two-dimensional vector, `sf::Vector2f`. -/
structure Vector2f (F : Type) where
  x : F
  y : F
deriving DecidableEq

namespace Vector2f

variable {F : Type}

/-- Componentwise sum, `operator+` (and `+=`). -/
def add [Add F] (a b : Vector2f F) : Vector2f F := ⟨a.x + b.x, a.y + b.y⟩

/-- Componentwise difference, `operator-`. -/
def sub [Sub F] (a b : Vector2f F) : Vector2f F := ⟨a.x - b.x, a.y - b.y⟩

/-- Multiplication by a scalar on the right, `operator*(Vector2f, float)`. -/
def scale [Mul F] (a : Vector2f F) (k : F) : Vector2f F := ⟨a.x * k, a.y * k⟩

/-- Division by a scalar, `operator/=`: componentwise, with a value only when the divisor
is not zero (a float division by zero gives an infinity or NaN). -/
def divide? [Div F] [Zero F] [DecidableEq F] (a : Vector2f F) (k : F) :
    Option (Vector2f F) :=
  if k = 0 then none else some ⟨a.x / k, a.y / k⟩

end Vector2f

/-- Colour with four channels, `sf::Color`. -/
structure Color where
  r : Nat
  g : Nat
  b : Nat
  a : Nat
deriving DecidableEq

/-- The predefined colour `sf::Color::Green`. -/
def Color.Green : Color := ⟨0, 255, 0, 255⟩

/-- The predefined colour `sf::Color::Red`. -/
def Color.Red : Color := ⟨255, 0, 0, 255⟩

inductive ShapeType where
  | Circle
  | Rectangle
deriving DecidableEq

structure Transform (F : Type) where
  position : Vector2f F
  rotation : F
  size : Vector2f F
deriving DecidableEq

structure Velocity (F : Type) where
  velocity : Vector2f F
deriving DecidableEq

structure Shape (F : Type) where
  type : ShapeType
  color : Color
  radius : F
deriving DecidableEq

structure Health where
  hp : Int
deriving DecidableEq

structure PlayerTag where
deriving DecidableEq

structure EnemyTag where
deriving DecidableEq

/-- The component types the program instantiates the store templates with
(the `std::type_index` keys of the outer map). -/
inductive Kind where
  | transform
  | velocity
  | shape
  | health
  | playerTag
  | enemyTag
deriving DecidableEq

/-- The value type stored under each kind (the `T` behind `typeid(T)`). -/
@[reducible] def Component (F : Type) : Kind → Type
  | .transform => Transform F
  | .velocity => Velocity F
  | .shape => Shape F
  | .health => Health
  | .playerTag => PlayerTag
  | .enemyTag => EnemyTag

/-- Inner map of the store, `std::unordered_map<Entity, std::any>` for one kind. -/
abbrev ComponentMap (F : Type) (K : Kind) := Entity → Option (Component F K)

/-- Component Manager: `components`, the outer map; `none` when the outer map holds no
inner map for that kind. -/
structure ComponentManager (F : Type) where
  components : (K : Kind) → Option (ComponentMap F K)

namespace ComponentManager

variable {F : Type}

/-- The inner map `components[typeId]` as `operator[]` yields it: the stored one, or a
default-constructed (empty) one when the key is missing. -/
def inner (cm : ComponentManager F) (K : Kind) : ComponentMap F K :=
  match cm.components K with
  | some m => m
  | none => fun _ => none

/-- The call `componentMap.erase(entity)` on an inner map. -/
def eraseKey {K : Kind} (m : ComponentMap F K) (entity : Entity) : ComponentMap F K :=
  Function.update m entity none

/-- Method `addComponent<T>(entity, component)`: `components[typeId][entity] = component`. -/
def addComponent (cm : ComponentManager F) (K : Kind) (entity : Entity)
    (component : Component F K) : ComponentManager F :=
  ⟨Function.update cm.components K
    (some (Function.update (cm.inner K) entity (some component)))⟩

/-- Method `removeComponent<T>(entity)`: erases only when the outer map has the kind. -/
def removeComponent (cm : ComponentManager F) (K : Kind) (entity : Entity) :
    ComponentManager F :=
  match cm.components K with
  | some m => ⟨Function.update cm.components K (some (eraseKey m entity))⟩
  | none => cm

/-- The effect of `components[typeId]` on the outer map: `operator[]` inserts an empty
inner map when the key is missing, and leaves the map alone otherwise. -/
def touch (cm : ComponentManager F) (K : Kind) : ComponentManager F :=
  ⟨Function.update cm.components K (some (cm.inner K))⟩

/-- Method `getComponent<T>(entity)`: the value found (`none` for `nullptr`), together with the
store after the call, in which `components[typeId]` has been created if it was missing. -/
def getComponent (cm : ComponentManager F) (K : Kind) (entity : Entity) :
    Option (Component F K) × ComponentManager F :=
  let componentMap := cm.inner K
  (componentMap entity, cm.touch K)

/-- Method `removeEntity(entity)`: erases the entity from every inner map present. -/
def removeEntity (cm : ComponentManager F) (entity : Entity) : ComponentManager F :=
  ⟨fun K => (cm.components K).map (fun componentMap => eraseKey componentMap entity)⟩

/-- Assignment through a pointer obtained from `getComponent<T>(entity)`: the value stored
for the entity is replaced, every other entry stays. -/
def assign (cm : ComponentManager F) (K : Kind) (entity : Entity)
    (value : Component F K) : ComponentManager F :=
  ⟨Function.update cm.components K
    (some (Function.update (cm.inner K) entity (some value)))⟩

/-- A freshly constructed store: the outer map is empty. -/
def empty : ComponentManager F := ⟨fun _ => none⟩

end ComponentManager

/-- Entity Manager: the live list `entities` and the counter `nextEntity`. -/
structure EntityManager where
  entities : List Entity
  nextEntity : Entity
deriving DecidableEq

namespace EntityManager

/-- A freshly constructed registry: no entity, `nextEntity = 0`. -/
def fresh : EntityManager := ⟨[], 0⟩

/-- Method `createEntity()`: `entity = nextEntity++; entities.push_back(entity); return entity`. -/
def createEntity (em : EntityManager) : Entity × EntityManager :=
  let entity := em.nextEntity
  (entity, ⟨em.entities ++ [entity], em.nextEntity + 1⟩)

/-- Method `destroyEntity(entity)`: the erase-remove idiom, which drops every element equal to
`entity` and keeps the others in their order. -/
def destroyEntity (em : EntityManager) (entity : Entity) : EntityManager :=
  ⟨em.entities.filter (fun x => x ≠ entity), em.nextEntity⟩

/-- Method `getEntities()`: the live list. -/
def getEntities (em : EntityManager) : List Entity := em.entities

end EntityManager

/-- One call on the registry, for sequences of calls. -/
inductive RegistryCall where
  | create
  | destroy (entity : Entity)
deriving DecidableEq

/-- Performs one call; the second component collects, in order, the ids returned by the
`createEntity` calls made so far. -/
def applyCall (st : EntityManager × List Entity) : RegistryCall → EntityManager × List Entity
  | .create => ((st.1.createEntity).2, st.2 ++ [(st.1.createEntity).1])
  | .destroy entity => (st.1.destroyEntity entity, st.2)

/-- Runs a sequence of calls from a given registry. -/
def runCallsFrom (em : EntityManager) (calls : List RegistryCall) :
    EntityManager × List Entity :=
  calls.foldl applyCall (em, [])

/-- Runs a sequence of calls on a fresh registry. -/
def runCalls (calls : List RegistryCall) : EntityManager × List Entity :=
  runCallsFrom EntityManager.fresh calls

/-- Number of `createEntity` calls in a sequence. -/
def countCreates (calls : List RegistryCall) : Nat :=
  calls.count RegistryCall.create

/-! ## Game state and systems (`game.hpp`, `game.cpp`) -/

/-- The simulation state owned by `Game` (window, font and clocks left out). -/
structure Game (F : Type) where
  enemySpawnTimer : F
  entityManager : EntityManager
  componentManager : ComponentManager F
  player : Entity
  isGameOver : Bool

/-- The keys `handleInput` queries with `sf::Keyboard::isKeyPressed`, as read in one
frame. -/
structure Keyboard where
  W : Bool
  Up : Bool
  S : Bool
  Down : Bool
  A : Bool
  Left : Bool
  D : Bool
  Right : Bool
deriving DecidableEq

/-- The variables of the scan loop of `checkCollisions`: the store, the value behind the
pointer `playerHealth`, the vector `entitiesToDestroy` and the flag `isGameOver`. -/
structure CollisionScan (F : Type) where
  componentManager : ComponentManager F
  playerHealth : Health
  entitiesToDestroy : List Entity
  isGameOver : Bool

section Systems

variable {F : Type} [LinearOrderedField F]

/-- Constant `WINDOW_WIDTH`, as the float it is cast to. -/
def WINDOW_WIDTH : F := 800

/-- Constant `WINDOW_HEIGHT`, as the float it is cast to. -/
def WINDOW_HEIGHT : F := 600

/-- Constant `PLAYER_SPEED`, as the float it is cast to. -/
def PLAYER_SPEED : F := 200

/-- Constant `ENEMY_SPEED`, as the float it is cast to. -/
def ENEMY_SPEED : F := 100

/-- Constant `ENEMY_SPAWN_INTERVAL`. -/
def ENEMY_SPAWN_INTERVAL : F := 2

/-- Library function `std::clamp(v, lo, hi)`: `(v < lo) ? lo : (hi < v) ? hi : v`. -/
def clamp (v lo hi : F) : F :=
  if v < lo then lo else if hi < v then hi else v

/-- Body of the loop of `updateMovement` for one entity. -/
def updateMovementStep (deltaTime : F) (cm : ComponentManager F) (entity : Entity) :
    ComponentManager F :=
  let (transform, cm1) := cm.getComponent .transform entity
  let (velocity, cm2) := cm1.getComponent .velocity entity
  match transform, velocity with
  | some transform, some velocity =>
    let moved : Transform F :=
      { transform with
        position := transform.position.add (velocity.velocity.scale deltaTime) }
    let cm3 := cm2.assign .transform entity moved
    -- Keep player in bounds
    let (playerTag, cm4) := cm3.getComponent .playerTag entity
    match playerTag with
    | some _ =>
      let clampedX : Transform F :=
        { moved with position := ⟨clamp moved.position.x 0 WINDOW_WIDTH, moved.position.y⟩ }
      let clampedY : Transform F :=
        { clampedX with
          position := ⟨clampedX.position.x, clamp clampedX.position.y 0 WINDOW_HEIGHT⟩ }
      cm4.assign .transform entity clampedY
    | none => cm4
  | _, _ => cm2

/-- System `Game::updateMovement(deltaTime)`: the loop over the live list. -/
def updateMovement (g : Game F) (deltaTime : F) : Game F :=
  { g with
    componentManager :=
      g.entityManager.getEntities.foldl (updateMovementStep deltaTime) g.componentManager }

/-- The float literal `0.0001f` of `updateEnemyAI`: the binary32 number nearest to
`1 / 10000`, which is `13743895 / 2 ^ 37`. -/
def LENGTH_EPSILON : F := 13743895 / 137438953472

/-- Body of the loop of `updateEnemyAI` for one entity, `none` when it divides by zero.
The loop writes no `Transform`, so the value behind the pointer `playerTransform` is the
one read before the loop. -/
def updateEnemyAIStep? (sqrt : F → F) (playerTransform : Transform F)
    (cm : ComponentManager F) (entity : Entity) : Option (ComponentManager F) :=
  let (enemyTag, cm1) := cm.getComponent .enemyTag entity
  match enemyTag with
  | none => some cm1
  | some _ =>
    let (transform, cm2) := cm1.getComponent .transform entity
    let (velocity, cm3) := cm2.getComponent .velocity entity
    match transform, velocity with
    | some transform, some _ =>
      -- Move toward player
      let direction := playerTransform.position.sub transform.position
      let length := sqrt (direction.x * direction.x + direction.y * direction.y)
      if length > LENGTH_EPSILON then
        match direction.divide? length with
        | some direction => some (cm3.assign .velocity entity ⟨direction.scale ENEMY_SPEED⟩)
        | none => none
      else
        some (cm3.assign .velocity entity ⟨⟨0, 0⟩⟩)
    | _, _ => some cm3

/-- The store after the body of the loop of `updateEnemyAI` for one entity; the body never
divides by zero (`updateEnemyAIStep?_isSome`), so the fallback is never taken. -/
def updateEnemyAIStep (sqrt : F → F) (playerTransform : Transform F)
    (cm : ComponentManager F) (entity : Entity) : ComponentManager F :=
  (updateEnemyAIStep? sqrt playerTransform cm entity).getD cm

/-- System `Game::updateEnemyAI(deltaTime)`; `sqrt` stands for `std::sqrt`. -/
def updateEnemyAI (sqrt : F → F) (g : Game F) : Game F :=
  let (playerTransform, cm) := g.componentManager.getComponent .transform g.player
  match playerTransform with
  | none => { g with componentManager := cm }
  | some playerTransform =>
    { g with
      componentManager :=
        g.entityManager.getEntities.foldl (updateEnemyAIStep sqrt playerTransform) cm }

/-- Helper `Game::createPlayer()`. -/
def createPlayer (g : Game F) : Entity × Game F :=
  let (entity, em) := g.entityManager.createEntity
  let transform : Transform F :=
    { position := ⟨WINDOW_WIDTH / 2, WINDOW_HEIGHT / 2⟩, rotation := 0, size := ⟨20, 20⟩ }
  let shape : Shape F := { type := ShapeType.Circle, color := Color.Green, radius := 20 }
  let health : Health := { hp := 100 }
  let velocity : Velocity F := { velocity := ⟨0, 0⟩ }
  let cm := g.componentManager.addComponent .transform entity transform
  let cm := cm.addComponent .shape entity shape
  let cm := cm.addComponent .health entity health
  let cm := cm.addComponent .velocity entity velocity
  let cm := cm.addComponent .playerTag entity ⟨⟩
  (entity, { g with entityManager := em, componentManager := cm })

/-- The simulation state the constructor `Game::Game()` builds: timer 0, flag false, and
the player created on a fresh registry and an empty store. -/
def Game.initial : Game F :=
  let g0 : Game F :=
    { enemySpawnTimer := 0
      entityManager := EntityManager.fresh
      componentManager := ComponentManager.empty
      player := 0
      isGameOver := false }
  let (player, g1) := createPlayer g0
  { g1 with player := player }

/-- Helper `Game::createEnemy()`; `spawnSide` is the value drawn by `side(gen)` and
`coordinate` the one drawn by `yPos(gen)` or `xPos(gen)` (one draw per call). -/
def createEnemy (g : Game F) (spawnSide : Int) (coordinate : F) : Entity × Game F :=
  let (entity, em) := g.entityManager.createEntity
  let position : Vector2f F :=
    if spawnSide = 0 then ⟨0, coordinate⟩
    else if spawnSide = 1 then ⟨WINDOW_WIDTH, coordinate⟩
    else if spawnSide = 2 then ⟨coordinate, 0⟩
    else ⟨coordinate, WINDOW_HEIGHT⟩
  let transform : Transform F := { position := position, rotation := 0, size := ⟨15, 15⟩ }
  let shape : Shape F := { type := ShapeType.Circle, color := Color.Red, radius := 15 }
  let velocity : Velocity F := { velocity := ⟨0, 0⟩ }
  let cm := g.componentManager.addComponent .transform entity transform
  let cm := cm.addComponent .shape entity shape
  let cm := cm.addComponent .velocity entity velocity
  let cm := cm.addComponent .enemyTag entity ⟨⟩
  (entity, { g with entityManager := em, componentManager := cm })

/-- System `Game::handleInput(deltaTime)`, on the key states read in this frame. -/
def handleInput (g : Game F) (keys : Keyboard) : Game F :=
  let (velocity, cm) := g.componentManager.getComponent .velocity g.player
  match velocity with
  | none => { g with componentManager := cm }
  | some _ =>
    let v : Vector2f F := ⟨0, 0⟩
    let v : Vector2f F := if keys.W || keys.Up then ⟨v.x, -PLAYER_SPEED⟩ else v
    let v : Vector2f F := if keys.S || keys.Down then ⟨v.x, PLAYER_SPEED⟩ else v
    let v : Vector2f F := if keys.A || keys.Left then ⟨-PLAYER_SPEED, v.y⟩ else v
    let v : Vector2f F := if keys.D || keys.Right then ⟨PLAYER_SPEED, v.y⟩ else v
    { g with componentManager := cm.assign .velocity g.player ⟨v⟩ }

/-- System `Game::spawnEnemies(deltaTime)`, with the random draws of `createEnemy`. -/
def spawnEnemies (g : Game F) (deltaTime : F) (spawnSide : Int) (coordinate : F) : Game F :=
  let timer := g.enemySpawnTimer + deltaTime
  if timer ≥ ENEMY_SPAWN_INTERVAL then
    { (createEnemy { g with enemySpawnTimer := timer } spawnSide coordinate).2 with
      enemySpawnTimer := 0 }
  else
    { g with enemySpawnTimer := timer }

/-- Helper `Game::checkCircleCollision(pos1, radius1, pos2, radius2)`. -/
def checkCircleCollision (pos1 : Vector2f F) (radius1 : F) (pos2 : Vector2f F)
    (radius2 : F) : Bool :=
  let dx := pos1.x - pos2.x
  let dy := pos1.y - pos2.y
  let distanceSq := dx * dx + dy * dy
  let r := radius1 + radius2
  decide (distanceSq < r * r)

/-- Body of the scan loop of `checkCollisions` for one entity. The loop writes no
`Transform` and no `Shape`, so the values behind `playerTransform` and `playerShape` are
the ones read before the loop; `hp` is an `int`, taken without overflow. -/
def checkCollisionsStep (player : Entity) (playerTransform : Transform F)
    (playerShape : Shape F) (st : CollisionScan F) (entity : Entity) : CollisionScan F :=
  let (enemyTag, cm1) := st.componentManager.getComponent .enemyTag entity
  match enemyTag with
  | none => { st with componentManager := cm1 }
  | some _ =>
    let (enemyTransform, cm2) := cm1.getComponent .transform entity
    let (enemyShape, cm3) := cm2.getComponent .shape entity
    match enemyTransform, enemyShape with
    | some enemyTransform, some enemyShape =>
      if checkCircleCollision playerTransform.position playerShape.radius
          enemyTransform.position enemyShape.radius then
        let playerHealth : Health := { hp := st.playerHealth.hp - 10 }
        { componentManager := cm3.assign .health player playerHealth
          playerHealth := playerHealth
          entitiesToDestroy := st.entitiesToDestroy ++ [entity]
          isGameOver := if playerHealth.hp ≤ 0 then true else st.isGameOver }
      else
        { st with componentManager := cm3 }
    | _, _ => { st with componentManager := cm3 }

/-- The scan loop of `checkCollisions` (its first `for`), run on the store `cm` that the
three lookups of the player's components leave, with the values those lookups found. -/
def checkCollisionsScan (g : Game F) (cm : ComponentManager F) (playerTransform : Transform F)
    (playerShape : Shape F) (playerHealth : Health) : CollisionScan F :=
  g.entityManager.getEntities.foldl
    (checkCollisionsStep g.player playerTransform playerShape)
    { componentManager := cm, playerHealth := playerHealth, entitiesToDestroy := [],
      isGameOver := g.isGameOver }

/-- System `Game::checkCollisions()`: the scan, then the destruction of the queued
entities in the registry and in the store. -/
def checkCollisions (g : Game F) : Game F :=
  let (playerTransform, cm1) := g.componentManager.getComponent .transform g.player
  let (playerShape, cm2) := cm1.getComponent .shape g.player
  let (playerHealth, cm3) := cm2.getComponent .health g.player
  match playerTransform, playerShape, playerHealth with
  | some playerTransform, some playerShape, some playerHealth =>
    let scan := checkCollisionsScan g cm3 playerTransform playerShape playerHealth
    let destroyed := scan.entitiesToDestroy.foldl
      (fun (st : EntityManager × ComponentManager F) e =>
        (st.1.destroyEntity e, st.2.removeEntity e))
      (g.entityManager, scan.componentManager)
    { g with
      entityManager := destroyed.1
      componentManager := destroyed.2
      isGameOver := scan.isGameOver }
  | _, _, _ => { g with componentManager := cm3 }

/-- The effect of `Game::render()` on the simulation state: drawing only reads, through
`getComponent`, the Transform and the Shape of every live entity. -/
def render (g : Game F) : Game F :=
  { g with
    componentManager :=
      g.entityManager.getEntities.foldl
        (fun cm entity => ((cm.getComponent .transform entity).2.getComponent .shape entity).2)
        g.componentManager }

/-- The effect of `Game::updateDebugOverlay(deltaTime)` on the simulation state: it reads
the EnemyTag of every live entity and the Health of the player. -/
def updateDebugOverlay (g : Game F) : Game F :=
  { g with
    componentManager :=
      ((g.entityManager.getEntities.foldl
        (fun cm entity => (cm.getComponent .enemyTag entity).2)
        g.componentManager).getComponent .health g.player).2 }

/-- One iteration of the loop of `Game::run()` on the simulation state: the five systems
in order unless the game is over, then the drawing calls (`gameOver()` draws a text and
reads no component). -/
def frame (sqrt : F → F) (keys : Keyboard) (deltaTime : F) (spawnSide : Int)
    (coordinate : F) (g : Game F) : Game F :=
  let g :=
    if g.isGameOver then g
    else
      let g := handleInput g keys
      let g := updateMovement g deltaTime
      let g := updateEnemyAI sqrt g
      let g := spawnEnemies g deltaTime spawnSide coordinate
      checkCollisions g
  updateDebugOverlay (render g)

/-- The values one iteration of the loop of `Game::run()` takes from outside: the keys
pressed, the measured `deltaTime` and the random draws of a possible spawn. -/
structure FrameInput (F : Type) where
  keys : Keyboard
  deltaTime : F
  spawnSide : Int
  coordinate : F

/-- Several iterations of the loop of `Game::run()`, one per input, in order. -/
def runFrames (sqrt : F → F) (inputs : List (FrameInput F)) (g : Game F) : Game F :=
  inputs.foldl
    (fun g i => frame sqrt i.keys i.deltaTime i.spawnSide i.coordinate g) g

/-- The test the scan of `checkCollisions` applies to an entity, in the words of the
specification: the entity has EnemyTag, Transform and Shape, and the squared distance
between its centre and the player's is strictly less than the squared sum of the radii. -/
def overlapsPlayer (cm : ComponentManager F) (playerTransform : Transform F)
    (playerShape : Shape F) (entity : Entity) : Bool :=
  match (cm.getComponent .enemyTag entity).1, (cm.getComponent .transform entity).1,
    (cm.getComponent .shape entity).1 with
  | some _, some enemyTransform, some enemyShape =>
    decide ((playerTransform.position.x - enemyTransform.position.x) ^ 2 +
        (playerTransform.position.y - enemyTransform.position.y) ^ 2 <
      (playerShape.radius + enemyShape.radius) ^ 2)
  | _, _, _ => false

/-- The velocity `handleInput` gives the player, in the words of the specification: the
horizontal part depends on the left and right keys only, the vertical part on the up and
down keys only. -/
def inputVelocity (keys : Keyboard) : Vector2f F :=
  ⟨if keys.D || keys.Right then 200 else if keys.A || keys.Left then -200 else 0,
    if keys.S || keys.Down then 200 else if keys.W || keys.Up then -200 else 0⟩

/-- The simulation state `g'` shows what `g` shows: same registry, spawn timer, player id
and game-over flag, and the same result for every `getComponent` lookup. -/
def Game.unchangedFrom (g' g : Game F) : Prop :=
  g'.entityManager = g.entityManager ∧
  g'.enemySpawnTimer = g.enemySpawnTimer ∧
  g'.player = g.player ∧
  g'.isGameOver = g.isGameOver ∧
  ∀ (K : Kind) (e : Entity),
    (g'.componentManager.getComponent K e).1 = (g.componentManager.getComponent K e).1

/-- The invariant of the states the game reaches: the player is live; live ids are below
the registry's counter; only live entities have components; the player has a component
of every kind but EnemyTag, and no EnemyTag; the player alone carries PlayerTag. -/
def Game.Invariant (g : Game F) : Prop :=
  g.player ∈ g.entityManager.getEntities ∧
  (∀ x ∈ g.entityManager.getEntities, x < g.entityManager.nextEntity) ∧
  (∀ (K : Kind) (e : Entity),
    ((g.componentManager.getComponent K e).1).isSome = true →
      e ∈ g.entityManager.getEntities) ∧
  (∀ K : Kind, K ≠ Kind.enemyTag →
    ((g.componentManager.getComponent K g.player).1).isSome = true) ∧
  (g.componentManager.getComponent Kind.enemyTag g.player).1 = none ∧
  (∀ e : Entity,
    ((g.componentManager.getComponent Kind.playerTag e).1).isSome = true → e = g.player)

end Systems

/-! ## Concrete states used to instantiate the theorems -/

/-- A state for the collision system: the player, entity 0, at (0, 0) with radius 20 and
`hp` health points, an enemy, entity 1, of radius 15 at (10, 0), and an enemy, entity 2,
of radius 15 at (500, 500). -/
def collisionSample (F : Type) [LinearOrderedField F] (hp : Int) : Game F :=
  { enemySpawnTimer := 0
    entityManager := ⟨[0, 1, 2], 3⟩
    componentManager :=
      (((((((((ComponentManager.empty.addComponent .transform 0 ⟨⟨0, 0⟩, 0, ⟨20, 20⟩⟩).addComponent
        .shape 0 ⟨ShapeType.Circle, Color.Green, 20⟩).addComponent .health 0 ⟨hp⟩).addComponent
        .playerTag 0 ⟨⟩).addComponent .transform 1 ⟨⟨10, 0⟩, 0, ⟨15, 15⟩⟩).addComponent
        .shape 1 ⟨ShapeType.Circle, Color.Red, 15⟩).addComponent .enemyTag 1 ⟨⟩).addComponent
        .transform 2 ⟨⟨500, 500⟩, 0, ⟨15, 15⟩⟩).addComponent
        .shape 2 ⟨ShapeType.Circle, Color.Red, 15⟩).addComponent .enemyTag 2 ⟨⟩
    player := 0
    isGameOver := false }

/-- The collision sample with 0 health points, after the game is over. -/
def gameOverSample : Game ℚ :=
  { collisionSample ℚ 0 with isGameOver := true }

/-- A store with two entities: entity 0 has a health and a player tag, entity 1 a health. -/
def sampleStore : ComponentManager ℚ :=
  ((ComponentManager.empty.addComponent .health 0 ⟨100⟩).addComponent .playerTag 0 ⟨⟩).addComponent
    .health 1 ⟨50⟩

/-- A registry in which ids 0, 1, 2 were created and id 1 was destroyed. -/
def sampleRegistry : EntityManager := ⟨[0, 2], 3⟩

/-- A state in which the player, entity 0, has a health and a player tag but no
Transform, Shape or Velocity, and entity 1 has a health. -/
def barePlayerSample : Game ℚ :=
  { enemySpawnTimer := 1
    entityManager := ⟨[0, 1], 2⟩
    componentManager := sampleStore
    player := 0
    isGameOver := false }

/-- A state for the movement system: the player, entity 0, at (0, 300) with velocity
(-10, 0), and an untagged entity 1 at (0, 0) with velocity (10, 0). -/
def movementSample : Game ℚ :=
  { enemySpawnTimer := 0
    entityManager := ⟨[0, 1], 2⟩
    componentManager :=
      ((((ComponentManager.empty.addComponent .transform 0 ⟨⟨0, 300⟩, 0, ⟨20, 20⟩⟩).addComponent
        .velocity 0 ⟨⟨-10, 0⟩⟩).addComponent .playerTag 0 ⟨⟩).addComponent
        .transform 1 ⟨⟨0, 0⟩, 0, ⟨15, 15⟩⟩).addComponent .velocity 1 ⟨⟨10, 0⟩⟩
    player := 0
    isGameOver := false }

/-- The state `movementSample` over the reals. -/
def movementSampleReal : Game ℝ :=
  { enemySpawnTimer := 0
    entityManager := ⟨[0, 1], 2⟩
    componentManager :=
      ((((ComponentManager.empty.addComponent .transform 0 ⟨⟨0, 300⟩, 0, ⟨20, 20⟩⟩).addComponent
        .velocity 0 ⟨⟨-10, 0⟩⟩).addComponent .playerTag 0 ⟨⟩).addComponent
        .transform 1 ⟨⟨0, 0⟩, 0, ⟨15, 15⟩⟩).addComponent .velocity 1 ⟨⟨10, 0⟩⟩
    player := 0
    isGameOver := false }

/-- A state for the enemy AI: the player, entity 0, at `(px, py)`, and an enemy, entity 1,
at (100, 100) with velocity (7, 7). -/
def aiSample (F : Type) [LinearOrderedField F] (px py : F) : Game F :=
  { enemySpawnTimer := 0
    entityManager := ⟨[0, 1], 2⟩
    componentManager :=
      ((((ComponentManager.empty.addComponent .transform 0 ⟨⟨px, py⟩, 0, ⟨20, 20⟩⟩).addComponent
        .playerTag 0 ⟨⟩).addComponent .transform 1 ⟨⟨100, 100⟩, 0, ⟨15, 15⟩⟩).addComponent
        .velocity 1 ⟨⟨7, 7⟩⟩).addComponent .enemyTag 1 ⟨⟩
    player := 0
    isGameOver := false }

/-! ## Lemmas on the component store -/

namespace ComponentManager

variable {F : Type}

theorem getComponent_fst (cm : ComponentManager F) (K : Kind) (e : Entity) :
    (cm.getComponent K e).1 = cm.inner K e := rfl

theorem getComponent_eq (cm : ComponentManager F) (K : Kind) (e : Entity) :
    cm.getComponent K e = (cm.inner K e, cm.touch K) := rfl

theorem inner_touch (cm : ComponentManager F) (K K' : Kind) :
    (cm.touch K).inner K' = cm.inner K' := by
  by_cases h : K' = K
  · subst h; simp [touch, inner]
  · simp [touch, inner, Function.update_noteq h]

theorem inner_getComponent_snd (cm : ComponentManager F) (K K' : Kind) (e : Entity) :
    (cm.getComponent K e).2.inner K' = cm.inner K' :=
  inner_touch cm K K'

theorem inner_addComponent_self (cm : ComponentManager F) (K : Kind) (e : Entity)
    (v : Component F K) : (cm.addComponent K e v).inner K e = some v := by
  simp [addComponent, inner]

theorem inner_addComponent_entity (cm : ComponentManager F) (K : Kind) (e e' : Entity)
    (v : Component F K) (he : e' ≠ e) :
    (cm.addComponent K e v).inner K e' = cm.inner K e' := by
  simp [addComponent, inner, Function.update_noteq he]

theorem inner_addComponent_kind (cm : ComponentManager F) (K K' : Kind) (e : Entity)
    (v : Component F K) (h : K' ≠ K) :
    (cm.addComponent K e v).inner K' = cm.inner K' := by
  simp [addComponent, inner, Function.update_noteq h]

theorem addComponent_addComponent (cm : ComponentManager F) (K : Kind) (e : Entity)
    (v1 v : Component F K) :
    (cm.addComponent K e v1).addComponent K e v = cm.addComponent K e v := by
  simp [addComponent, inner]

theorem inner_removeComponent (cm : ComponentManager F) (K K' : Kind) (e e' : Entity) :
    (cm.removeComponent K e).inner K' e' =
      if K' = K ∧ e' = e then none else cm.inner K' e' := by
  unfold removeComponent
  cases hm : cm.components K with
  | none =>
    by_cases h : K' = K
    · subst h; simp [inner, hm]
    · simp [h]
  | some m =>
    by_cases h : K' = K
    · subst h
      by_cases he : e' = e
      · subst he; simp [inner, eraseKey]
      · simp [inner, eraseKey, Function.update_noteq he, he, hm]
    · simp [inner, Function.update_noteq h, h]

theorem inner_removeEntity (cm : ComponentManager F) (K : Kind) (e e' : Entity) :
    (cm.removeEntity e).inner K e' = if e' = e then none else cm.inner K e' := by
  unfold removeEntity inner
  cases hm : cm.components K with
  | none => simp [hm]
  | some m =>
    by_cases he : e' = e
    · subst he; simp [eraseKey, hm]
    · simp [eraseKey, Function.update_noteq he, he, hm]

theorem inner_assign_self (cm : ComponentManager F) (K : Kind) (e : Entity)
    (v : Component F K) : (cm.assign K e v).inner K e = some v :=
  inner_addComponent_self cm K e v

theorem inner_assign_entity (cm : ComponentManager F) (K : Kind) (e e' : Entity)
    (v : Component F K) (he : e' ≠ e) : (cm.assign K e v).inner K e' = cm.inner K e' :=
  inner_addComponent_entity cm K e e' v he

theorem inner_assign_kind (cm : ComponentManager F) (K K' : Kind) (e : Entity)
    (v : Component F K) (h : K' ≠ K) : (cm.assign K e v).inner K' = cm.inner K' :=
  inner_addComponent_kind cm K K' e v h

end ComponentManager

/-! ## Claims on the component store -/

/-- C1: after `removeComponent<K>(e)` the lookup `getComponent<K>(e)` is absent, whether or
not a component was stored, and the lookup at every other pair of kind and entity is the
one of the store before. -/
theorem C1_get_after_removeComponent {F : Type} (s : ComponentManager F) (K : Kind)
    (e : Entity) :
    ((s.removeComponent K e).getComponent K e).1 = none ∧
    ∀ (K' : Kind) (e' : Entity), (K' ≠ K ∨ e' ≠ e) →
      ((s.removeComponent K e).getComponent K' e').1 = (s.getComponent K' e').1 := by
  refine ⟨?_, ?_⟩
  · simp [ComponentManager.getComponent_fst, ComponentManager.inner_removeComponent]
  · intro K' e' h
    have h' : ¬ (K' = K ∧ e' = e) := by
      rintro ⟨h1, h2⟩
      rcases h with h | h
      · exact h h1
      · exact h h2
    simp [ComponentManager.getComponent_fst, ComponentManager.inner_removeComponent, h']

/-- Witness of C1 on a store holding a health for entities 0 and 1. -/
theorem C1_get_after_removeComponent_witness :
    (sampleStore.getComponent .health 0).1 = some ⟨100⟩ ∧
    ((sampleStore.removeComponent .health 0).getComponent .health 0).1 = none ∧
    (Kind.health ≠ Kind.health ∨ (1 : Entity) ≠ 0) ∧
    ((sampleStore.removeComponent .health 0).getComponent .health 1).1 = some ⟨50⟩ :=
  ⟨rfl, (C1_get_after_removeComponent sampleStore .health 0).1, Or.inr (by decide),
    ((C1_get_after_removeComponent sampleStore .health 0).2 .health 1
      (Or.inr (by decide))).trans rfl⟩

/-- C2: after `removeEntity(e)` the lookup at `e` is absent for every kind at once, and
every lookup at another entity is the one of the store before. -/
theorem C2_get_after_removeEntity {F : Type} (s : ComponentManager F) (e : Entity) :
    (∀ K : Kind, ((s.removeEntity e).getComponent K e).1 = none) ∧
    ∀ (K : Kind) (e' : Entity), e' ≠ e →
      ((s.removeEntity e).getComponent K e').1 = (s.getComponent K e').1 := by
  refine ⟨?_, ?_⟩
  · intro K
    simp [ComponentManager.getComponent_fst, ComponentManager.inner_removeEntity]
  · intro K e' h
    simp [ComponentManager.getComponent_fst, ComponentManager.inner_removeEntity, h]

/-- Witness of C2: removing entity 0 clears its health and its tag and keeps entity 1. -/
theorem C2_get_after_removeEntity_witness :
    (sampleStore.getComponent .playerTag 0).1 = some ⟨⟩ ∧
    ((sampleStore.removeEntity 0).getComponent .health 0).1 = none ∧
    ((sampleStore.removeEntity 0).getComponent .playerTag 0).1 = none ∧
    (1 : Entity) ≠ 0 ∧
    ((sampleStore.removeEntity 0).getComponent .health 1).1 = some ⟨50⟩ :=
  ⟨rfl, (C2_get_after_removeEntity sampleStore 0).1 .health,
    (C2_get_after_removeEntity sampleStore 0).1 .playerTag, by decide,
    ((C2_get_after_removeEntity sampleStore 0).2 .health 1 (by decide)).trans rfl⟩

/-- C4: the call `addComponent(e, v)` is total; afterwards `getComponent<K>(e)` is `v`, whatever was
stored before; adding `v1` and then `v` gives the lookups of adding `v` alone; the lookup
at every other pair of kind and entity is unchanged. -/
theorem C4_get_after_addComponent {F : Type} (s : ComponentManager F) (K : Kind)
    (e : Entity) (v : Component F K) :
    ((s.addComponent K e v).getComponent K e).1 = some v ∧
    (∀ (v1 : Component F K) (K' : Kind) (e' : Entity),
      (((s.addComponent K e v1).addComponent K e v).getComponent K' e').1 =
        ((s.addComponent K e v).getComponent K' e').1) ∧
    ∀ (K' : Kind) (e' : Entity), (K' ≠ K ∨ e' ≠ e) →
      ((s.addComponent K e v).getComponent K' e').1 = (s.getComponent K' e').1 := by
  refine ⟨?_, ?_, ?_⟩
  · simp [ComponentManager.getComponent_fst, ComponentManager.inner_addComponent_self]
  · intro v1 K' e'
    rw [ComponentManager.addComponent_addComponent]
  · intro K' e' h
    simp only [ComponentManager.getComponent_fst]
    by_cases hK : K' = K
    · subst hK
      have he : e' ≠ e := by
        rcases h with h | h
        · exact absurd rfl h
        · exact h
      exact ComponentManager.inner_addComponent_entity s K' e e' v he
    · rw [ComponentManager.inner_addComponent_kind s K K' e v hK]

/-- Witness of C4: overwriting the health of entity 0 keeps the health of entity 1. -/
theorem C4_get_after_addComponent_witness :
    ((sampleStore.addComponent .health 0 ⟨90⟩).getComponent .health 0).1 = some ⟨90⟩ ∧
    (Kind.health ≠ Kind.health ∨ (1 : Entity) ≠ 0) ∧
    ((sampleStore.addComponent .health 0 ⟨90⟩).getComponent .health 1).1 = some ⟨50⟩ :=
  ⟨(C4_get_after_addComponent sampleStore .health 0 ⟨90⟩).1, Or.inr (by decide),
    ((C4_get_after_addComponent sampleStore .health 0 ⟨90⟩).2.2 .health 1
      (Or.inr (by decide))).trans rfl⟩

/-! ## Lemmas on the entity registry -/

theorem runCallsFrom_append (em : EntityManager) (calls : List RegistryCall)
    (c : RegistryCall) :
    runCallsFrom em (calls ++ [c]) = applyCall (runCallsFrom em calls) c := by
  simp [runCallsFrom, List.foldl_append]

theorem runCalls_append (calls : List RegistryCall) (c : RegistryCall) :
    runCalls (calls ++ [c]) = applyCall (runCalls calls) c :=
  runCallsFrom_append _ calls c

theorem countCreates_append (calls : List RegistryCall) (c : RegistryCall) :
    countCreates (calls ++ [c]) =
      countCreates calls + (if c = RegistryCall.create then 1 else 0) := by
  unfold countCreates
  rw [List.count_append]
  by_cases h : c = RegistryCall.create
  · subst h; simp
  · have h' : RegistryCall.create ≠ c := fun hc => h hc.symm
    simp [h, List.count_singleton, h']

/-- The counter after a run is the initial counter plus the number of creations, and the
ids returned are the consecutive naturals from the initial counter on. -/
theorem runCallsFrom_spec (em : EntityManager) (calls : List RegistryCall) :
    (runCallsFrom em calls).1.nextEntity = em.nextEntity + countCreates calls ∧
    (runCallsFrom em calls).2 = List.range' em.nextEntity (countCreates calls) := by
  induction calls using List.reverseRecOn with
  | nil => simp [runCallsFrom, countCreates]
  | append_singleton cs c ih =>
    obtain ⟨ih1, ih2⟩ := ih
    rw [runCallsFrom_append, countCreates_append]
    cases c with
    | create =>
      simp only [applyCall, EntityManager.createEntity, ih1, ih2, if_true]
      refine ⟨Nat.add_assoc _ _ _, ?_⟩
      rw [List.range'_concat, Nat.one_mul]
    | destroy e =>
      simp [applyCall, EntityManager.destroyEntity, ih1, ih2]

/-- Every live id is below the counter and the live list is strictly increasing. -/
theorem runCalls_sorted (calls : List RegistryCall) :
    (∀ x ∈ (runCalls calls).1.entities, x < (runCalls calls).1.nextEntity) ∧
    List.Pairwise (fun a b => a < b) (runCalls calls).1.entities := by
  induction calls using List.reverseRecOn with
  | nil => simp [runCalls, runCallsFrom, EntityManager.fresh]
  | append_singleton cs c ih =>
    obtain ⟨ih1, ih2⟩ := ih
    rw [runCalls_append]
    cases c with
    | create =>
      simp only [applyCall, EntityManager.createEntity]
      refine ⟨?_, ?_⟩
      · intro x hx
        rcases List.mem_append.1 hx with h | h
        · exact Nat.lt_succ_of_lt (ih1 x h)
        · rw [List.mem_singleton.1 h]; exact Nat.lt_succ_self _
      · rw [List.pairwise_append]
        refine ⟨ih2, List.pairwise_singleton _ _, ?_⟩
        intro a ha b hb
        simp at hb
        subst hb
        exact ih1 a ha
    | destroy e =>
      simp only [applyCall, EntityManager.destroyEntity]
      refine ⟨?_, ?_⟩
      · intro x hx
        exact ih1 x (List.mem_filter.1 hx).1
      · exact ih2.filter _

/-- Splitting a sequence that ends in `c` around one of its `create` calls: either that
call is the last one, or the last call belongs to the part after it. -/
theorem concat_eq_split (cs pre post : List RegistryCall) (c : RegistryCall)
    (h : cs ++ [c] = pre ++ RegistryCall.create :: post) :
    (post = [] ∧ pre = cs ∧ c = RegistryCall.create) ∨
    ∃ post', post = post' ++ [c] ∧ cs = pre ++ RegistryCall.create :: post' := by
  rcases List.eq_nil_or_concat post with hp | ⟨post', b, hp⟩
  · subst hp
    have h' : cs ++ [c] = pre ++ [RegistryCall.create] := h
    obtain ⟨h1, h2⟩ := List.append_inj' h' rfl
    exact Or.inl ⟨rfl, h1.symm, by simpa using h2⟩
  · subst hp
    have h' : cs ++ [c] = (pre ++ RegistryCall.create :: post') ++ [b] := by
      rw [h]; simp
    obtain ⟨h1, h2⟩ := List.append_inj' h' rfl
    have hcb : c = b := by simpa using h2
    subst hcb
    exact Or.inr ⟨post', by simp, h1⟩

/-- The live list after a run holds exactly the ids returned by a `createEntity` call that
no later call destroyed. -/
theorem mem_runCalls_entities (calls : List RegistryCall) (x : Entity) :
    x ∈ (runCalls calls).1.entities ↔
      ∃ pre post, calls = pre ++ RegistryCall.create :: post ∧
        ((runCalls pre).1.createEntity).1 = x ∧ RegistryCall.destroy x ∉ post := by
  induction calls using List.reverseRecOn with
  | nil =>
    constructor
    · intro h
      simp [runCalls, runCallsFrom, EntityManager.fresh] at h
    · rintro ⟨pre, post, h, _⟩
      simp at h
  | append_singleton cs c ih =>
    rw [runCalls_append]
    cases c with
    | create =>
      simp only [applyCall, EntityManager.createEntity, List.mem_append,
        List.mem_singleton]
      constructor
      · rintro (h | h)
        · obtain ⟨pre, post, h1, h2, h3⟩ := ih.1 h
          refine ⟨pre, post ++ [RegistryCall.create], ?_, h2, ?_⟩
          · rw [h1]; simp
          · simp [h3]
        · exact ⟨cs, [], rfl, h.symm, by simp⟩
      · rintro ⟨pre, post, h1, h2, h3⟩
        rcases concat_eq_split cs pre post _ h1 with ⟨_, hpre, _⟩ | ⟨post', hp, hcs⟩
        · subst hpre
          exact Or.inr h2.symm
        · subst hp
          refine Or.inl (ih.2 ⟨pre, post', hcs, h2, ?_⟩)
          intro hm
          exact h3 (List.mem_append_left _ hm)
    | destroy e =>
      simp only [applyCall, EntityManager.destroyEntity, List.mem_filter]
      constructor
      · rintro ⟨h, hne⟩
        obtain ⟨pre, post, h1, h2, h3⟩ := ih.1 h
        refine ⟨pre, post ++ [RegistryCall.destroy e], ?_, h2, ?_⟩
        · rw [h1]; simp
        · have hxe : x ≠ e := by simpa using hne
          simp [h3, hxe]
      · rintro ⟨pre, post, h1, h2, h3⟩
        rcases concat_eq_split cs pre post _ h1 with ⟨_, _, hc⟩ | ⟨post', hp, hcs⟩
        · cases hc
        · subst hp
          have hx : RegistryCall.destroy x ∉ post' := fun hm =>
            h3 (List.mem_append_left _ hm)
          have hxe : x ≠ e := by
            intro hxe
            apply h3
            simp [hxe]
          exact ⟨ih.2 ⟨pre, post', hcs, h2, hx⟩, by simpa using hxe⟩

theorem runCalls_replicate_create (N : Nat) :
    (runCalls (List.replicate N RegistryCall.create)).1 = ⟨List.range N, N⟩ := by
  induction N with
  | zero => rfl
  | succ n ih =>
    rw [List.replicate_succ', runCalls_append]
    simp [applyCall, EntityManager.createEntity, ih, List.range_succ]

theorem runCalls_append_destroys (cs : List RegistryCall) (l : List Entity) :
    (runCalls (cs ++ l.map RegistryCall.destroy)).1 =
      ⟨(runCalls cs).1.entities.filter (fun x => decide (x ∉ l)), (runCalls cs).1.nextEntity⟩ := by
  induction l using List.reverseRecOn with
  | nil => simp
  | append_singleton l e ih =>
    rw [List.map_append, List.map_singleton, ← List.append_assoc, runCalls_append]
    simp only [applyCall, EntityManager.destroyEntity, ih, List.filter_filter]
    congr 1
    apply List.filter_congr
    intro x _
    simp [and_comm]

/-! ## Claims on the entity registry -/

/-- C3: on a fresh registry, whatever the sequence of creations and destructions, every
`createEntity` returns an id strictly greater than all ids returned before it (the ids
returned are 0, 1, 2, ... in order); creating `N` entities, destroying all of them and
creating one more returns `N` after the ids `0, ..., N - 1`, and `N` alone is live. -/
theorem C3_createEntity_strictly_increasing (calls : List RegistryCall) (N : Nat) :
    List.Pairwise (fun a b => a < b) (runCalls calls).2 ∧
    (runCalls calls).2 = List.range (countCreates calls) ∧
    (runCalls (List.replicate N RegistryCall.create ++
        (List.range N).map RegistryCall.destroy ++ [RegistryCall.create])).2
      = List.range N ++ [N] ∧
    List.Pairwise (fun a b => a < b) (List.range N ++ [N]) ∧
    (runCalls (List.replicate N RegistryCall.create ++
        (List.range N).map RegistryCall.destroy ++ [RegistryCall.create])).1.getEntities
      = [N] := by
  have h := fun cs => (runCallsFrom_spec EntityManager.fresh cs).2
  have hr : ∀ cs, (runCalls cs).2 = List.range (countCreates cs) := by
    intro cs
    have := h cs
    simpa [runCalls, EntityManager.fresh, List.range_eq_range'] using this
  refine ⟨?_, hr calls, ?_, ?_, ?_⟩
  · rw [hr]
    exact List.pairwise_lt_range _
  · rw [hr]
    have hc : countCreates (List.replicate N RegistryCall.create ++
        (List.range N).map RegistryCall.destroy ++ [RegistryCall.create]) = N + 1 := by
      simp [countCreates, List.count_append, List.count_replicate, List.count_eq_zero]
    rw [hc, List.range_succ]
  · rw [← List.range_succ]
    exact List.pairwise_lt_range _
  · rw [runCalls_append]
    simp [applyCall, EntityManager.createEntity, EntityManager.getEntities,
      runCalls_append_destroys, runCalls_replicate_create]

/-- C5: the call `destroyEntity(e)` yields a live list without `e`, is idempotent, and leaves the
live list and the counter unchanged when `e` is not live. -/
theorem C5_destroyEntity_idempotent (r : EntityManager) (e : Entity) :
    e ∉ (r.destroyEntity e).getEntities ∧
    (r.destroyEntity e).destroyEntity e = r.destroyEntity e ∧
    (e ∉ r.getEntities →
      (r.destroyEntity e).getEntities = r.getEntities ∧
      (r.destroyEntity e).nextEntity = r.nextEntity) := by
  refine ⟨?_, ?_, ?_⟩
  · simp [EntityManager.destroyEntity, EntityManager.getEntities]
  · simp [EntityManager.destroyEntity]
  · intro h
    refine ⟨?_, rfl⟩
    simp only [EntityManager.destroyEntity, EntityManager.getEntities] at h ⊢
    rw [List.filter_eq_self]
    intro a ha
    have : a ≠ e := fun hae => h (hae ▸ ha)
    simpa using this

/-- Witness of C5: id 1 was destroyed before, id 7 was never created. -/
theorem C5_destroyEntity_idempotent_witness :
    (1 : Entity) ∉ sampleRegistry.getEntities ∧
    (sampleRegistry.destroyEntity 1).getEntities = [0, 2] ∧
    (sampleRegistry.destroyEntity 1).nextEntity = 3 ∧
    (sampleRegistry.destroyEntity 0).getEntities = [2] :=
  ⟨by decide,
    ((C5_destroyEntity_idempotent sampleRegistry 1).2.2 (by decide)).1.trans rfl,
    ((C5_destroyEntity_idempotent sampleRegistry 1).2.2 (by decide)).2.trans rfl, by decide⟩

/-- C6: on a fresh registry, after any sequence of creations and destructions
`getEntities` holds exactly the ids returned by a `createEntity` call and not destroyed by
a later call, each once, in creation order, that is strictly increasing; `destroyEntity`
keeps the remaining ids in their relative order. -/
theorem C6_getEntities_creation_order (calls : List RegistryCall) :
    (∀ x : Entity, x ∈ (runCalls calls).1.getEntities ↔
      ∃ pre post, calls = pre ++ RegistryCall.create :: post ∧
        ((runCalls pre).1.createEntity).1 = x ∧ RegistryCall.destroy x ∉ post) ∧
    List.Pairwise (fun a b => a < b) (runCalls calls).1.getEntities ∧
    (runCalls calls).1.getEntities.Nodup ∧
    ∀ (r : EntityManager) (e : Entity),
      List.Sublist (r.destroyEntity e).getEntities r.getEntities ∧
      ∀ x : Entity, x ∈ (r.destroyEntity e).getEntities ↔ x ∈ r.getEntities ∧ x ≠ e := by
  refine ⟨fun x => mem_runCalls_entities calls x, (runCalls_sorted calls).2, ?_, ?_⟩
  · exact ((runCalls_sorted calls).2).imp (fun h => Nat.ne_of_lt h)
  · intro r e
    refine ⟨List.filter_sublist _, ?_⟩
    intro x
    simp [EntityManager.destroyEntity, EntityManager.getEntities]

/-- Witness of C6: create, create, destroy 0, create, destroy 5, create leaves 1, 2, 3;
id 1 is live because the second call returned it and no later call destroyed it. -/
theorem C6_getEntities_creation_order_witness :
    (runCalls [.create, .create, .destroy 0, .create, .destroy 5, .create]).1.getEntities
      = [1, 2, 3] ∧
    (1 : Entity) ∈
      (runCalls [.create, .create, .destroy 0, .create, .destroy 5, .create]).1.getEntities :=
  ⟨by decide,
    ((C6_getEntities_creation_order
      [.create, .create, .destroy 0, .create, .destroy 5, .create]).1 1).2
      ⟨[.create], [.destroy 0, .create, .destroy 5, .create], rfl, by decide, by decide⟩⟩

/-! ## The movement system -/

section
variable {F : Type} [LinearOrderedField F]
open ComponentManager

theorem updateMovementStep_inner_kind (dt : F) (cm : ComponentManager F) (e : Entity)
    (K : Kind) (hK : K ≠ Kind.transform) :
    (updateMovementStep dt cm e).inner K = cm.inner K := by
  unfold updateMovementStep
  simp only [getComponent_eq, inner_touch]
  split <;> [split; skip] <;>
    simp [inner_assign_kind _ _ _ _ _ hK, inner_touch]

theorem updateMovementStep_inner_entity (dt : F) (cm : ComponentManager F) (e e' : Entity)
    (he : e' ≠ e) :
    (updateMovementStep dt cm e).inner Kind.transform e' = cm.inner Kind.transform e' := by
  unfold updateMovementStep
  simp only [getComponent_eq, inner_touch]
  split <;> [split; skip] <;>
    simp [inner_assign_entity _ _ _ _ _ he, inner_touch]

theorem updateMovementStep_inner_self (dt : F) (cm : ComponentManager F) (e : Entity) :
    (updateMovementStep dt cm e).inner Kind.transform e =
      match cm.inner Kind.transform e, cm.inner Kind.velocity e with
      | some t, some v =>
        match cm.inner Kind.playerTag e with
        | some _ =>
          some { t with
            position :=
              ⟨clamp (t.position.x + v.velocity.x * dt) 0 WINDOW_WIDTH,
                clamp (t.position.y + v.velocity.y * dt) 0 WINDOW_HEIGHT⟩ }
        | none =>
          some { t with
            position := ⟨t.position.x + v.velocity.x * dt, t.position.y + v.velocity.y * dt⟩ }
      | _, _ => cm.inner Kind.transform e := by
  unfold updateMovementStep
  simp only [getComponent_eq, inner_touch]
  split
  · rename_i t v ht hv
    simp only [inner_assign_kind _ Kind.transform Kind.playerTag e _ (by decide), inner_touch]
    split <;> rename_i hp <;> simp [hp, inner_assign_self, inner_touch, Vector2f.add, Vector2f.scale]
  · simp [inner_touch]

theorem foldl_updateMovementStep_kind (dt : F) (l : List Entity) (cm : ComponentManager F)
    (K : Kind) (hK : K ≠ Kind.transform) :
    (l.foldl (updateMovementStep dt) cm).inner K = cm.inner K := by
  induction l generalizing cm with
  | nil => rfl
  | cons a l ih =>
    rw [List.foldl_cons, ih, updateMovementStep_inner_kind dt cm a K hK]

theorem foldl_updateMovementStep_not_mem (dt : F) (l : List Entity)
    (cm : ComponentManager F) (e : Entity) (he : e ∉ l) :
    (l.foldl (updateMovementStep dt) cm).inner Kind.transform e =
      cm.inner Kind.transform e := by
  induction l generalizing cm with
  | nil => rfl
  | cons a l ih =>
    have hea : e ≠ a := fun h => he (h ▸ List.mem_cons_self _ _)
    have hel : e ∉ l := fun h => he (List.mem_cons_of_mem _ h)
    rw [List.foldl_cons, ih _ hel, updateMovementStep_inner_entity dt cm a e hea]

theorem foldl_updateMovementStep_mem (dt : F) (l : List Entity) (cm : ComponentManager F)
    (e : Entity) (hnd : l.Nodup) (he : e ∈ l) :
    (l.foldl (updateMovementStep dt) cm).inner Kind.transform e =
      (updateMovementStep dt cm e).inner Kind.transform e := by
  induction l generalizing cm with
  | nil => cases he
  | cons a l ih =>
    obtain ⟨hal, hnd'⟩ := List.nodup_cons.1 hnd
    rw [List.foldl_cons]
    by_cases hea : e = a
    · subst hea
      exact foldl_updateMovementStep_not_mem dt l _ e hal
    · have hel : e ∈ l := (List.mem_cons.1 he).resolve_left hea
      rw [ih _ hnd' hel, updateMovementStep_inner_self, updateMovementStep_inner_self,
        updateMovementStep_inner_entity dt cm a e hea,
        updateMovementStep_inner_kind dt cm a Kind.velocity (by decide),
        updateMovementStep_inner_kind dt cm a Kind.playerTag (by decide)]

theorem clamp_eq_max_min (v lo hi : F) (h : lo ≤ hi) : clamp v lo hi = max lo (min v hi) := by
  unfold clamp
  split_ifs with h1 h2
  · rw [max_eq_left]; exact le_trans (min_le_left _ _) h1.le
  · rw [min_eq_right h2.le, max_eq_right h]
  · rw [min_eq_left (not_lt.1 h2), max_eq_right (not_lt.1 h1)]

end

/-- C7: on a live list without duplicates `updateMovement(dt)` moves every live entity
that has a Transform and a Velocity and no PlayerTag to `position + velocity * dt`
(rotation and size kept); the Transform of an entity lacking a Transform or a Velocity,
or not in the live list, is unchanged; no component of another kind, the registry, the
spawn timer, the player id or the game-over flag changes. -/
theorem C7_updateMovement_integrates {F : Type} [LinearOrderedField F] (g : Game F)
    (dt : F) (hnd : g.entityManager.getEntities.Nodup) :
    (∀ (e : Entity) (t : Transform F) (v : Velocity F),
      e ∈ g.entityManager.getEntities →
      (g.componentManager.getComponent .transform e).1 = some t →
      (g.componentManager.getComponent .velocity e).1 = some v →
      (g.componentManager.getComponent .playerTag e).1 = none →
      ((updateMovement g dt).componentManager.getComponent .transform e).1 =
        some { t with
          position :=
            ⟨t.position.x + v.velocity.x * dt, t.position.y + v.velocity.y * dt⟩ }) ∧
    (∀ e : Entity,
      ((g.componentManager.getComponent .transform e).1 = none ∨
        (g.componentManager.getComponent .velocity e).1 = none ∨
        e ∉ g.entityManager.getEntities) →
      ((updateMovement g dt).componentManager.getComponent .transform e).1 =
        (g.componentManager.getComponent .transform e).1) ∧
    (∀ (K : Kind) (e : Entity), K ≠ Kind.transform →
      ((updateMovement g dt).componentManager.getComponent K e).1 =
        (g.componentManager.getComponent K e).1) ∧
    (updateMovement g dt).entityManager = g.entityManager ∧
    (updateMovement g dt).enemySpawnTimer = g.enemySpawnTimer ∧
    (updateMovement g dt).player = g.player ∧
    (updateMovement g dt).isGameOver = g.isGameOver := by
  refine ⟨?_, ?_, ?_, rfl, rfl, rfl, rfl⟩ <;>
    simp only [ComponentManager.getComponent_fst, updateMovement]
  · intro e t v he ht hv hp
    rw [foldl_updateMovementStep_mem dt _ _ e hnd he, updateMovementStep_inner_self, ht, hv,
      hp]
  · intro e h
    by_cases he : e ∈ g.entityManager.getEntities
    · rw [foldl_updateMovementStep_mem dt _ _ e hnd he, updateMovementStep_inner_self]
      rcases h with h | h | h
      · rw [h]
      · rw [h]
        cases g.componentManager.inner Kind.transform e <;> rfl
      · exact absurd he h
    · exact foldl_updateMovementStep_not_mem dt _ _ e he
  · intro K e hK
    rw [foldl_updateMovementStep_kind dt _ _ K hK]

/-- Witness of C7: position (0, 0), velocity (10, 0) and a step of 1/2 give (5, 0). -/
theorem C7_updateMovement_integrates_witness :
    movementSample.entityManager.getEntities.Nodup ∧
    ((updateMovement movementSample (1 / 2)).componentManager.getComponent .transform 1).1 =
      some ⟨⟨5, 0⟩, 0, ⟨15, 15⟩⟩ := by
  refine ⟨by decide, ?_⟩
  have h := (C7_updateMovement_integrates movementSample (1 / 2) (by decide)).1 1
    ⟨⟨0, 0⟩, 0, ⟨15, 15⟩⟩ ⟨⟨10, 0⟩⟩ (by decide) rfl rfl rfl
  rw [h]
  norm_num

/-- C8: on a live list without duplicates, after `updateMovement(dt)` a live entity with
Transform, Velocity and PlayerTag is at `(clamp(x + vx*dt, 0, 800), clamp(y + vy*dt, 0, 600))`,
each axis clamped on its own, so that `0 ≤ x ≤ 800` and `0 ≤ y ≤ 600`; rotation and size
are kept. -/
theorem C8_updateMovement_clamps_player {F : Type} [LinearOrderedField F] (g : Game F)
    (dt : F) (hnd : g.entityManager.getEntities.Nodup) (e : Entity) (t : Transform F)
    (v : Velocity F) (p : PlayerTag) (he : e ∈ g.entityManager.getEntities)
    (ht : (g.componentManager.getComponent .transform e).1 = some t)
    (hv : (g.componentManager.getComponent .velocity e).1 = some v)
    (hp : (g.componentManager.getComponent .playerTag e).1 = some p) :
    ∃ t' : Transform F,
      ((updateMovement g dt).componentManager.getComponent .transform e).1 = some t' ∧
      t'.position.x = clamp (t.position.x + v.velocity.x * dt) 0 800 ∧
      t'.position.y = clamp (t.position.y + v.velocity.y * dt) 0 600 ∧
      t'.position.x = max 0 (min (t.position.x + v.velocity.x * dt) 800) ∧
      t'.position.y = max 0 (min (t.position.y + v.velocity.y * dt) 600) ∧
      t'.rotation = t.rotation ∧ t'.size = t.size ∧
      0 ≤ t'.position.x ∧ t'.position.x ≤ 800 ∧ 0 ≤ t'.position.y ∧ t'.position.y ≤ 600 := by
  simp only [ComponentManager.getComponent_fst, updateMovement] at *
  rw [foldl_updateMovementStep_mem dt _ _ e hnd he, updateMovementStep_inner_self, ht, hv, hp]
  refine ⟨_, rfl, rfl, rfl, ?_, ?_, rfl, rfl, ?_, ?_, ?_, ?_⟩
  · exact clamp_eq_max_min _ 0 800 (by norm_num)
  · exact clamp_eq_max_min _ 0 600 (by norm_num)
  · show (0 : F) ≤ clamp _ 0 WINDOW_WIDTH
    rw [clamp_eq_max_min _ _ _ (by norm_num [WINDOW_WIDTH])]; exact le_max_left _ _
  · show clamp _ 0 WINDOW_WIDTH ≤ (800 : F)
    rw [clamp_eq_max_min _ _ _ (by norm_num [WINDOW_WIDTH])]
    exact max_le (by norm_num) (min_le_right _ _)
  · show (0 : F) ≤ clamp _ 0 WINDOW_HEIGHT
    rw [clamp_eq_max_min _ _ _ (by norm_num [WINDOW_HEIGHT])]; exact le_max_left _ _
  · show clamp _ 0 WINDOW_HEIGHT ≤ (600 : F)
    rw [clamp_eq_max_min _ _ _ (by norm_num [WINDOW_HEIGHT])]
    exact max_le (by norm_num) (min_le_right _ _)

/-- Witness of C8: the player at (0, 300) with velocity (-10, 0) and a step of 1/2 is
integrated to (-5, 300) and clamped to (0, 300). -/
theorem C8_updateMovement_clamps_player_witness :
    movementSample.entityManager.getEntities.Nodup ∧
    (0 : ℚ) + -10 * (1 / 2) = -5 ∧
    ∃ t' : Transform ℚ,
      ((updateMovement movementSample (1 / 2)).componentManager.getComponent
        .transform 0).1 = some t' ∧
      t'.position.x = 0 ∧ t'.position.y = 300 := by
  refine ⟨by decide, by norm_num, ?_⟩
  obtain ⟨t', h, hx, hy, -⟩ := C8_updateMovement_clamps_player movementSample (1 / 2)
    (by decide) 0 ⟨⟨0, 300⟩, 0, ⟨20, 20⟩⟩ ⟨⟨-10, 0⟩⟩ ⟨⟩ (by decide) rfl rfl rfl
  refine ⟨t', h, ?_, ?_⟩
  · rw [hx]; norm_num [clamp]
  · rw [hy]; norm_num [clamp]

/-! ## The enemy AI system -/

section
variable {F : Type} [LinearOrderedField F]
open ComponentManager

theorem LENGTH_EPSILON_pos : (0 : F) < LENGTH_EPSILON := by
  unfold LENGTH_EPSILON
  positivity

theorem LENGTH_EPSILON_lt : (LENGTH_EPSILON : F) < 0.0001 := by
  unfold LENGTH_EPSILON
  norm_num

theorem divide?_of_ne_zero (a : Vector2f F) (k : F) (hk : k ≠ 0) :
    a.divide? k = some ⟨a.x / k, a.y / k⟩ := by
  unfold Vector2f.divide?
  rw [if_neg hk]

/-- The body of the loop of `updateEnemyAI` never divides by zero: it divides by the
length only after finding it greater than `0.0001f`, and its value is this store. -/
theorem updateEnemyAIStep?_eq (sqrt : F → F) (pt : Transform F) (cm : ComponentManager F)
    (e : Entity) :
    updateEnemyAIStep? sqrt pt cm e =
      some (match cm.inner Kind.enemyTag e with
        | none => cm.touch Kind.enemyTag
        | some _ =>
          match cm.inner Kind.transform e, cm.inner Kind.velocity e with
          | some t, some _ =>
            if sqrt ((pt.position.x - t.position.x) * (pt.position.x - t.position.x) +
                (pt.position.y - t.position.y) * (pt.position.y - t.position.y))
                  > LENGTH_EPSILON then
              (((cm.touch Kind.enemyTag).touch Kind.transform).touch Kind.velocity).assign
                Kind.velocity e
                ⟨⟨(pt.position.x - t.position.x) /
                    sqrt ((pt.position.x - t.position.x) * (pt.position.x - t.position.x) +
                      (pt.position.y - t.position.y) * (pt.position.y - t.position.y)) * 100,
                  (pt.position.y - t.position.y) /
                    sqrt ((pt.position.x - t.position.x) * (pt.position.x - t.position.x) +
                      (pt.position.y - t.position.y) * (pt.position.y - t.position.y)) * 100⟩⟩
            else
              (((cm.touch Kind.enemyTag).touch Kind.transform).touch Kind.velocity).assign
                Kind.velocity e ⟨⟨0, 0⟩⟩
          | _, _ => ((cm.touch Kind.enemyTag).touch Kind.transform).touch Kind.velocity) := by
  unfold updateEnemyAIStep?
  simp only [getComponent_eq, inner_touch]
  cases h1 : cm.inner Kind.enemyTag e with
  | none => rfl
  | some tag =>
    cases h2 : cm.inner Kind.transform e with
    | none => rfl
    | some t =>
      cases h3 : cm.inner Kind.velocity e with
      | none => rfl
      | some v =>
        simp only [Vector2f.sub]
        by_cases hlen : sqrt ((pt.position.x - t.position.x) * (pt.position.x - t.position.x) +
            (pt.position.y - t.position.y) * (pt.position.y - t.position.y)) > LENGTH_EPSILON
        · have hne : sqrt ((pt.position.x - t.position.x) * (pt.position.x - t.position.x) +
              (pt.position.y - t.position.y) * (pt.position.y - t.position.y)) ≠ 0 :=
            ne_of_gt (lt_trans LENGTH_EPSILON_pos hlen)
          simp only [if_pos hlen, divide?_of_ne_zero _ _ hne, Vector2f.scale, ENEMY_SPEED]
        · simp only [if_neg hlen]

theorem updateEnemyAIStep_inner_kind (sqrt : F → F) (pt : Transform F)
    (cm : ComponentManager F) (e : Entity) (K : Kind) (hK : K ≠ Kind.velocity) :
    (updateEnemyAIStep sqrt pt cm e).inner K = cm.inner K := by
  unfold updateEnemyAIStep
  rw [updateEnemyAIStep?_eq, Option.getD_some]
  split
  · simp [inner_touch]
  · split
    · split <;> simp [inner_assign_kind _ _ _ _ _ hK, inner_touch]
    · simp [inner_touch]

theorem updateEnemyAIStep_inner_entity (sqrt : F → F) (pt : Transform F)
    (cm : ComponentManager F) (e e' : Entity) (he : e' ≠ e) :
    (updateEnemyAIStep sqrt pt cm e).inner Kind.velocity e' = cm.inner Kind.velocity e' := by
  unfold updateEnemyAIStep
  rw [updateEnemyAIStep?_eq, Option.getD_some]
  split
  · simp [inner_touch]
  · split
    · split <;> simp [inner_assign_entity _ _ _ _ _ he, inner_touch]
    · simp [inner_touch]

theorem updateEnemyAIStep_inner_self (sqrt : F → F) (pt : Transform F)
    (cm : ComponentManager F) (e : Entity) :
    (updateEnemyAIStep sqrt pt cm e).inner Kind.velocity e =
      match cm.inner Kind.enemyTag e, cm.inner Kind.transform e, cm.inner Kind.velocity e with
      | some _, some t, some _ =>
        if sqrt ((pt.position.x - t.position.x) * (pt.position.x - t.position.x) +
            (pt.position.y - t.position.y) * (pt.position.y - t.position.y))
              > LENGTH_EPSILON then
          some ⟨⟨(pt.position.x - t.position.x) /
              sqrt ((pt.position.x - t.position.x) * (pt.position.x - t.position.x) +
                (pt.position.y - t.position.y) * (pt.position.y - t.position.y)) * 100,
            (pt.position.y - t.position.y) /
              sqrt ((pt.position.x - t.position.x) * (pt.position.x - t.position.x) +
                (pt.position.y - t.position.y) * (pt.position.y - t.position.y)) * 100⟩⟩
        else some ⟨⟨0, 0⟩⟩
      | _, _, _ => cm.inner Kind.velocity e := by
  unfold updateEnemyAIStep
  rw [updateEnemyAIStep?_eq, Option.getD_some]
  cases h1 : cm.inner Kind.enemyTag e with
  | none => simp [inner_touch, h1]
  | some tag =>
    cases h2 : cm.inner Kind.transform e with
    | none => simp [inner_touch]
    | some t =>
      cases h3 : cm.inner Kind.velocity e with
      | none => simp [inner_touch, h3]
      | some v =>
        simp only
        split <;> simp [inner_assign_self]

theorem updateEnemyAIStep_step (sqrt : F → F) (pt : Transform F)
    (cm : ComponentManager F) (a e : Entity) :
    (updateEnemyAIStep sqrt pt (updateEnemyAIStep sqrt pt cm a) e).inner Kind.velocity e =
      (updateEnemyAIStep sqrt pt cm e).inner Kind.velocity e := by
  rw [updateEnemyAIStep_inner_self sqrt pt (updateEnemyAIStep sqrt pt cm a) e,
    updateEnemyAIStep_inner_kind sqrt pt cm a Kind.enemyTag (by decide),
    updateEnemyAIStep_inner_kind sqrt pt cm a Kind.transform (by decide)]
  by_cases hae : e = a
  · subst hae
    rw [updateEnemyAIStep_inner_self sqrt pt cm e]
    cases cm.inner Kind.enemyTag e with
    | none => rfl
    | some tag =>
      cases cm.inner Kind.transform e with
      | none => rfl
      | some t =>
        cases cm.inner Kind.velocity e with
        | none => rfl
        | some v =>
          simp only
          split_ifs with hc <;> simp only [if_pos, if_neg, hc, not_false_eq_true]
  · rw [updateEnemyAIStep_inner_entity sqrt pt cm a e hae,
      updateEnemyAIStep_inner_self sqrt pt cm e]

theorem foldl_updateEnemyAIStep_kind (sqrt : F → F) (pt : Transform F) (l : List Entity)
    (cm : ComponentManager F) (K : Kind) (hK : K ≠ Kind.velocity) :
    (l.foldl (updateEnemyAIStep sqrt pt) cm).inner K = cm.inner K := by
  induction l generalizing cm with
  | nil => rfl
  | cons a l ih =>
    rw [List.foldl_cons, ih, updateEnemyAIStep_inner_kind sqrt pt cm a K hK]

theorem foldl_updateEnemyAIStep_not_mem (sqrt : F → F) (pt : Transform F) (l : List Entity)
    (cm : ComponentManager F) (e : Entity) (he : e ∉ l) :
    (l.foldl (updateEnemyAIStep sqrt pt) cm).inner Kind.velocity e =
      cm.inner Kind.velocity e := by
  induction l generalizing cm with
  | nil => rfl
  | cons a l ih =>
    have hea : e ≠ a := fun h => he (h ▸ List.mem_cons_self _ _)
    have hel : e ∉ l := fun h => he (List.mem_cons_of_mem _ h)
    rw [List.foldl_cons, ih _ hel, updateEnemyAIStep_inner_entity sqrt pt cm a e hea]

theorem foldl_updateEnemyAIStep_mem (sqrt : F → F) (pt : Transform F) (l : List Entity)
    (cm : ComponentManager F) (e : Entity) (he : e ∈ l) :
    (l.foldl (updateEnemyAIStep sqrt pt) cm).inner Kind.velocity e =
      (updateEnemyAIStep sqrt pt cm e).inner Kind.velocity e := by
  induction l generalizing cm with
  | nil => cases he
  | cons a l ih =>
    rw [List.foldl_cons]
    by_cases hel : e ∈ l
    · rw [ih _ hel, updateEnemyAIStep_step]
    · have hea : e = a := (List.mem_cons.1 he).resolve_right hel
      subst hea
      exact foldl_updateEnemyAIStep_not_mem sqrt pt l _ e hel

/-- The store after `updateEnemyAI` when the player has a Transform. -/
theorem updateEnemyAI_componentManager (sqrt : F → F) (g : Game F) (pt : Transform F)
    (hpt : g.componentManager.inner Kind.transform g.player = some pt) :
    (updateEnemyAI sqrt g).componentManager =
      g.entityManager.getEntities.foldl (updateEnemyAIStep sqrt pt)
        (g.componentManager.touch Kind.transform) := by
  unfold updateEnemyAI
  simp only [getComponent_eq, hpt]

end

/-- C10: when the player has a Transform at `p`, `updateEnemyAI` gives every live entity
with EnemyTag, Transform at `q` and Velocity such that `|p - q| > 0.0001` the velocity
`100 * (p - q) / |p - q|`, of length exactly 100; it changes no component of a kind other
than Velocity (so no position) and no component of an entity without EnemyTag. -/
theorem C10_updateEnemyAI_homes_on_player (g : Game ℝ) (pt : Transform ℝ)
    (hpt : (g.componentManager.getComponent .transform g.player).1 = some pt) :
    (∀ (e : Entity) (tag : EnemyTag) (t : Transform ℝ) (v : Velocity ℝ),
      e ∈ g.entityManager.getEntities →
      (g.componentManager.getComponent .enemyTag e).1 = some tag →
      (g.componentManager.getComponent .transform e).1 = some t →
      (g.componentManager.getComponent .velocity e).1 = some v →
      0.0001 < Real.sqrt ((pt.position.x - t.position.x) ^ 2 +
        (pt.position.y - t.position.y) ^ 2) →
      ∃ w : Velocity ℝ,
        ((updateEnemyAI Real.sqrt g).componentManager.getComponent .velocity e).1 = some w ∧
        w.velocity.x = 100 * (pt.position.x - t.position.x) /
          Real.sqrt ((pt.position.x - t.position.x) ^ 2 +
            (pt.position.y - t.position.y) ^ 2) ∧
        w.velocity.y = 100 * (pt.position.y - t.position.y) /
          Real.sqrt ((pt.position.x - t.position.x) ^ 2 +
            (pt.position.y - t.position.y) ^ 2) ∧
        Real.sqrt (w.velocity.x ^ 2 + w.velocity.y ^ 2) = 100) ∧
    (∀ (K : Kind) (e : Entity), K ≠ Kind.velocity →
      ((updateEnemyAI Real.sqrt g).componentManager.getComponent K e).1 =
        (g.componentManager.getComponent K e).1) ∧
    (∀ (K : Kind) (e : Entity), (g.componentManager.getComponent .enemyTag e).1 = none →
      ((updateEnemyAI Real.sqrt g).componentManager.getComponent K e).1 =
        (g.componentManager.getComponent K e).1) := by
  simp only [ComponentManager.getComponent_fst] at *
  have hkind : ∀ (K : Kind) (e : Entity), K ≠ Kind.velocity →
      (updateEnemyAI Real.sqrt g).componentManager.inner K e =
        g.componentManager.inner K e := by
    intro K e hK
    rw [updateEnemyAI_componentManager Real.sqrt g pt hpt,
      foldl_updateEnemyAIStep_kind Real.sqrt pt _ _ K hK, ComponentManager.inner_touch]
  refine ⟨?_, hkind, ?_⟩
  · intro e tag t v he htag ht hv hfar
    rw [updateEnemyAI_componentManager Real.sqrt g pt hpt,
      foldl_updateEnemyAIStep_mem Real.sqrt pt _ _ e he, updateEnemyAIStep_inner_self]
    simp only [ComponentManager.inner_touch, htag, ht, hv]
    rw [← sq, ← sq, if_pos (lt_trans LENGTH_EPSILON_lt hfar)]
    set dx := pt.position.x - t.position.x
    set dy := pt.position.y - t.position.y
    set L := Real.sqrt (dx ^ 2 + dy ^ 2) with hL
    have hLpos : 0 < L := lt_trans (by norm_num) hfar
    have hLsq : L ^ 2 = dx ^ 2 + dy ^ 2 := Real.sq_sqrt (by positivity)
    refine ⟨_, rfl, ?_, ?_, ?_⟩
    · show dx / L * 100 = 100 * dx / L
      ring
    · show dy / L * 100 = 100 * dy / L
      ring
    · show Real.sqrt ((dx / L * 100) ^ 2 + (dy / L * 100) ^ 2) = 100
      have h100 : (dx / L * 100) ^ 2 + (dy / L * 100) ^ 2 = 100 ^ 2 := by
        have hne : L ≠ 0 := ne_of_gt hLpos
        field_simp
        rw [hLsq]
        ring
      rw [h100]
      exact Real.sqrt_sq (by norm_num)
  · intro K e htag
    by_cases hK : K = Kind.velocity
    · subst hK
      rw [updateEnemyAI_componentManager Real.sqrt g pt hpt]
      by_cases he : e ∈ g.entityManager.getEntities
      · rw [foldl_updateEnemyAIStep_mem Real.sqrt pt _ _ e he, updateEnemyAIStep_inner_self]
        simp only [ComponentManager.inner_touch, htag]
      · rw [foldl_updateEnemyAIStep_not_mem Real.sqrt pt _ _ e he,
          ComponentManager.inner_touch]
    · exact hkind K e hK

/-- Witness of C10: player at (200, 100), enemy at (100, 100); the enemy's velocity
becomes (100, 0). -/
theorem C10_updateEnemyAI_homes_on_player_witness :
    ∃ w : Velocity ℝ,
      ((updateEnemyAI Real.sqrt (aiSample ℝ 200 100)).componentManager.getComponent
        .velocity 1).1 = some w ∧
      w.velocity.x = 100 ∧ w.velocity.y = 0 := by
  have hd : Real.sqrt (((200 : ℝ) - 100) ^ 2 + ((100 : ℝ) - 100) ^ 2) = 100 := by
    have : ((200 : ℝ) - 100) ^ 2 + ((100 : ℝ) - 100) ^ 2 = 100 ^ 2 := by norm_num
    rw [this]
    exact Real.sqrt_sq (by norm_num)
  obtain ⟨w, h, hx, hy, -⟩ :=
    (C10_updateEnemyAI_homes_on_player (aiSample ℝ 200 100) ⟨⟨200, 100⟩, 0, ⟨20, 20⟩⟩ rfl).1
      1 ⟨⟩ ⟨⟨100, 100⟩, 0, ⟨15, 15⟩⟩ ⟨⟨7, 7⟩⟩ (by decide) rfl rfl rfl
      (by
        show (0.0001 : ℝ) < Real.sqrt (((200 : ℝ) - 100) ^ 2 + ((100 : ℝ) - 100) ^ 2)
        rw [hd]; norm_num)
  refine ⟨w, h, ?_, ?_⟩
  · rw [hx]
    show (100 : ℝ) * ((200 : ℝ) - 100) /
      Real.sqrt (((200 : ℝ) - 100) ^ 2 + ((100 : ℝ) - 100) ^ 2) = 100
    rw [hd]; norm_num
  · rw [hy]
    show (100 : ℝ) * ((100 : ℝ) - 100) /
      Real.sqrt (((200 : ℝ) - 100) ^ 2 + ((100 : ℝ) - 100) ^ 2) = 0
    rw [hd]; norm_num

/-! ## The circle test -/

theorem checkCircleCollision_iff {F : Type} [LinearOrderedField F] (p1 p2 : Vector2f F)
    (r1 r2 : F) :
    checkCircleCollision p1 r1 p2 r2 = true ↔
      (p1.x - p2.x) ^ 2 + (p1.y - p2.y) ^ 2 < (r1 + r2) ^ 2 := by
  simp [checkCircleCollision, sq]

/-- C20: over the reals and for non-negative radii, `checkCircleCollision` holds exactly
when the Euclidean distance of the centres is strictly less than the sum of the radii;
tangent circles do not collide, circles with the same centre collide unless both radii
are 0, and the test is symmetric. -/
theorem C20_checkCircleCollision_distance (p1 p2 : Vector2f ℝ) (r1 r2 : ℝ)
    (h1 : 0 ≤ r1) (h2 : 0 ≤ r2) :
    (checkCircleCollision p1 r1 p2 r2 = true ↔
      Real.sqrt ((p1.x - p2.x) ^ 2 + (p1.y - p2.y) ^ 2) < r1 + r2) ∧
    (Real.sqrt ((p1.x - p2.x) ^ 2 + (p1.y - p2.y) ^ 2) = r1 + r2 →
      checkCircleCollision p1 r1 p2 r2 = false) ∧
    (checkCircleCollision p1 r1 p1 r2 = true ↔ ¬ (r1 = 0 ∧ r2 = 0)) ∧
    checkCircleCollision p1 r1 p2 r2 = checkCircleCollision p2 r2 p1 r1 := by
  have hr : 0 ≤ r1 + r2 := add_nonneg h1 h2
  have key : ∀ q1 q2 : Vector2f ℝ, checkCircleCollision q1 r1 q2 r2 = true ↔
      Real.sqrt ((q1.x - q2.x) ^ 2 + (q1.y - q2.y) ^ 2) < r1 + r2 := by
    intro q1 q2
    rw [checkCircleCollision_iff]
    rcases hr.lt_or_eq with hpos | hzero
    · exact (Real.sqrt_lt' hpos).symm
    · rw [← hzero]
      constructor
      · intro h
        have : (0 : ℝ) ≤ (q1.x - q2.x) ^ 2 + (q1.y - q2.y) ^ 2 := by positivity
        norm_num at h
        linarith
      · intro h
        exact absurd h (not_lt.2 (Real.sqrt_nonneg _))
  refine ⟨key p1 p2, ?_, ?_, ?_⟩
  · intro h
    have := (key p1 p2).not.2 (by rw [h]; exact lt_irrefl _)
    simpa using this
  · rw [key p1 p1]
    simp only [sub_self, ne_eq, OfNat.ofNat_ne_zero, not_false_eq_true, zero_pow, add_zero,
      Real.sqrt_zero]
    constructor
    · rintro h ⟨ha, hb⟩
      rw [ha, hb] at h
      norm_num at h
    · intro h
      rcases hr.lt_or_eq with hpos | hzero
      · exact hpos
      · exfalso
        apply h
        constructor <;> linarith
  · have e1 : checkCircleCollision p1 r1 p2 r2 = true ↔
        checkCircleCollision p2 r2 p1 r1 = true := by
      rw [checkCircleCollision_iff, checkCircleCollision_iff]
      have : (p1.x - p2.x) ^ 2 + (p1.y - p2.y) ^ 2 =
          (p2.x - p1.x) ^ 2 + (p2.y - p1.y) ^ 2 := by ring
      rw [this, add_comm r1 r2]
    exact Bool.eq_iff_iff.2 e1

/-- Witness of C20: radius 20 at (0, 0) and radius 15 at (10, 0) collide, the distance 10
being less than 35. -/
theorem C20_checkCircleCollision_distance_witness :
    (0 : ℝ) ≤ 20 ∧ (0 : ℝ) ≤ 15 ∧
    checkCircleCollision (⟨0, 0⟩ : Vector2f ℝ) 20 ⟨10, 0⟩ 15 = true ∧
    checkCircleCollision (⟨0, 0⟩ : Vector2f ℝ) 20 ⟨0, 0⟩ 15 = true := by
  have h := C20_checkCircleCollision_distance (⟨0, 0⟩ : Vector2f ℝ) ⟨10, 0⟩ 20 15
    (by norm_num) (by norm_num)
  refine ⟨by norm_num, by norm_num, ?_, ?_⟩
  · rw [h.1, Real.sqrt_lt' (by norm_num)]; norm_num
  · rw [h.2.2.1]; norm_num

/-! ## The input system -/

section
variable {F : Type} [LinearOrderedField F]
open ComponentManager

theorem handleInput_fields (g : Game F) (keys : Keyboard) :
    (handleInput g keys).entityManager = g.entityManager ∧
    (handleInput g keys).enemySpawnTimer = g.enemySpawnTimer ∧
    (handleInput g keys).player = g.player ∧
    (handleInput g keys).isGameOver = g.isGameOver := by
  unfold handleInput
  simp only [getComponent_eq]
  split <;> exact ⟨rfl, rfl, rfl, rfl⟩

theorem handleInput_inner_kind (g : Game F) (keys : Keyboard) (K : Kind)
    (hK : K ≠ Kind.velocity) :
    (handleInput g keys).componentManager.inner K = g.componentManager.inner K := by
  unfold handleInput
  simp only [getComponent_eq]
  split
  · simp [inner_touch]
  · simp [inner_assign_kind _ _ _ _ _ hK, inner_touch]

theorem handleInput_inner_entity (g : Game F) (keys : Keyboard) (e : Entity)
    (he : e ≠ g.player) :
    (handleInput g keys).componentManager.inner Kind.velocity e =
      g.componentManager.inner Kind.velocity e := by
  unfold handleInput
  simp only [getComponent_eq]
  split
  · simp [inner_touch]
  · simp [inner_assign_entity _ _ _ _ _ he, inner_touch]

theorem handleInput_inner_player (g : Game F) (keys : Keyboard) :
    (handleInput g keys).componentManager.inner Kind.velocity g.player =
      match g.componentManager.inner Kind.velocity g.player with
      | some _ => some ⟨inputVelocity keys⟩
      | none => none := by
  unfold handleInput
  simp only [getComponent_eq]
  cases h : g.componentManager.inner Kind.velocity g.player with
  | none => simp [inner_touch, h]
  | some v =>
    simp only [inner_assign_self, Option.some.injEq, Velocity.mk.injEq, inputVelocity,
      PLAYER_SPEED]
    cases keys.W <;> cases keys.Up <;> cases keys.S <;> cases keys.Down <;>
      cases keys.A <;> cases keys.Left <;> cases keys.D <;> cases keys.Right <;> simp

end

/-- C16: when the player has a Velocity, `handleInput` replaces it, whatever it was, by
`(vx, vy)` with `vx` = 200 if D or Right is pressed, else -200 if A or Left is pressed,
else 0, and `vy` = 200 if S or Down is pressed, else -200 if W or Up is pressed, else 0;
W and D together give (200, -200), of length `200 * sqrt 2`, and no key gives (0, 0). -/
theorem C16_handleInput_sets_velocity (g : Game ℝ) (keys : Keyboard) (v : Velocity ℝ)
    (hv : (g.componentManager.getComponent .velocity g.player).1 = some v) :
    ((handleInput g keys).componentManager.getComponent .velocity g.player).1 =
      some ⟨⟨if keys.D || keys.Right then 200 else if keys.A || keys.Left then -200 else 0,
        if keys.S || keys.Down then 200 else if keys.W || keys.Up then -200 else 0⟩⟩ ∧
    ((handleInput g ⟨true, false, false, false, false, false, true, false⟩).componentManager.getComponent
      .velocity g.player).1 = some ⟨⟨200, -200⟩⟩ ∧
    Real.sqrt ((200 : ℝ) ^ 2 + (-200 : ℝ) ^ 2) = 200 * Real.sqrt 2 ∧
    ((handleInput g ⟨false, false, false, false, false, false, false, false⟩).componentManager.getComponent
      .velocity g.player).1 = some ⟨⟨0, 0⟩⟩ := by
  simp only [ComponentManager.getComponent_fst] at *
  refine ⟨?_, ?_, ?_, ?_⟩
  · rw [handleInput_inner_player, hv]; rfl
  · rw [handleInput_inner_player, hv]; simp [inputVelocity]
  · have : (200 : ℝ) ^ 2 + (-200 : ℝ) ^ 2 = 200 ^ 2 * 2 := by norm_num
    rw [this, Real.sqrt_mul (by norm_num), Real.sqrt_sq (by norm_num)]
  · rw [handleInput_inner_player, hv]; simp [inputVelocity]

/-- Witness of C16: the player of the movement sample moves left; with S and Right
pressed its velocity becomes (200, 200). -/
theorem C16_handleInput_sets_velocity_witness :
    (movementSampleReal.componentManager.getComponent .velocity 0).1 = some ⟨⟨-10, 0⟩⟩ ∧
    ((handleInput movementSampleReal
        ⟨false, false, true, false, false, false, false, true⟩).componentManager.getComponent
      .velocity 0).1 = some ⟨⟨200, 200⟩⟩ := by
  refine ⟨rfl, ?_⟩
  have h := (C16_handleInput_sets_velocity movementSampleReal
    ⟨false, false, true, false, false, false, false, true⟩ ⟨⟨-10, 0⟩⟩ rfl).1
  simpa using h

/-! ## The spawner -/

section
variable {F : Type} [LinearOrderedField F]
open ComponentManager

theorem createEnemy_entityManager (g : Game F) (side : Int) (c : F) :
    (createEnemy g side c).2.entityManager =
      ⟨g.entityManager.entities ++ [g.entityManager.nextEntity],
        g.entityManager.nextEntity + 1⟩ := rfl

theorem createEnemy_fields (g : Game F) (side : Int) (c : F) :
    (createEnemy g side c).2.enemySpawnTimer = g.enemySpawnTimer ∧
    (createEnemy g side c).2.player = g.player ∧
    (createEnemy g side c).2.isGameOver = g.isGameOver := ⟨rfl, rfl, rfl⟩

theorem createEnemy_inner_entity (g : Game F) (side : Int) (c : F) (K : Kind) (e : Entity)
    (he : e ≠ g.entityManager.nextEntity) :
    (createEnemy g side c).2.componentManager.inner K e = g.componentManager.inner K e := by
  have hadd : ∀ (cm : ComponentManager F) (K' : Kind) (v : Component F K'),
      (cm.addComponent K' g.entityManager.nextEntity v).inner K e = cm.inner K e := by
    intro cm K' v
    by_cases hK : K = K'
    · subst hK
      exact inner_addComponent_entity cm K _ e v he
    · rw [inner_addComponent_kind cm K' K _ v hK]
  simp only [createEnemy, EntityManager.createEntity, hadd]

theorem createEnemy_inner_new (g : Game F) (side : Int) (c : F) :
    (createEnemy g side c).2.componentManager.inner Kind.enemyTag
        g.entityManager.nextEntity = some ⟨⟩ ∧
    (createEnemy g side c).2.componentManager.inner Kind.velocity
        g.entityManager.nextEntity = some ⟨⟨0, 0⟩⟩ ∧
    (createEnemy g side c).2.componentManager.inner Kind.shape
        g.entityManager.nextEntity = some ⟨ShapeType.Circle, Color.Red, 15⟩ ∧
    (createEnemy g side c).2.componentManager.inner Kind.transform
        g.entityManager.nextEntity =
      some ⟨if side = 0 then ⟨0, c⟩ else if side = 1 then ⟨WINDOW_WIDTH, c⟩
        else if side = 2 then ⟨c, 0⟩ else ⟨c, WINDOW_HEIGHT⟩, 0, ⟨15, 15⟩⟩ ∧
    (createEnemy g side c).2.componentManager.inner Kind.health
        g.entityManager.nextEntity =
      g.componentManager.inner Kind.health g.entityManager.nextEntity ∧
    (createEnemy g side c).2.componentManager.inner Kind.playerTag
        g.entityManager.nextEntity =
      g.componentManager.inner Kind.playerTag g.entityManager.nextEntity := by
  simp only [createEnemy, EntityManager.createEntity]
  refine ⟨?_, ?_, ?_, ?_, ?_, ?_⟩
  · rw [inner_addComponent_self]
  · rw [inner_addComponent_kind _ _ Kind.velocity _ _ (by decide), inner_addComponent_self]
  · rw [inner_addComponent_kind _ _ Kind.shape _ _ (by decide),
      inner_addComponent_kind _ _ Kind.shape _ _ (by decide), inner_addComponent_self]
  · rw [inner_addComponent_kind _ _ Kind.transform _ _ (by decide),
      inner_addComponent_kind _ _ Kind.transform _ _ (by decide),
      inner_addComponent_kind _ _ Kind.transform _ _ (by decide), inner_addComponent_self]
  · rw [inner_addComponent_kind _ _ Kind.health _ _ (by decide),
      inner_addComponent_kind _ _ Kind.health _ _ (by decide),
      inner_addComponent_kind _ _ Kind.health _ _ (by decide),
      inner_addComponent_kind _ _ Kind.health _ _ (by decide)]
  · rw [inner_addComponent_kind _ _ Kind.playerTag _ _ (by decide),
      inner_addComponent_kind _ _ Kind.playerTag _ _ (by decide),
      inner_addComponent_kind _ _ Kind.playerTag _ _ (by decide),
      inner_addComponent_kind _ _ Kind.playerTag _ _ (by decide)]

theorem spawnEnemies_of_ge (g : Game F) (dt : F) (side : Int) (c : F)
    (h : g.enemySpawnTimer + dt ≥ 2) :
    spawnEnemies g dt side c =
      { (createEnemy { g with enemySpawnTimer := g.enemySpawnTimer + dt } side c).2 with
        enemySpawnTimer := 0 } := by
  unfold spawnEnemies
  simp only [ENEMY_SPAWN_INTERVAL]
  rw [if_pos h]

theorem spawnEnemies_of_lt (g : Game F) (dt : F) (side : Int) (c : F)
    (h : g.enemySpawnTimer + dt < 2) :
    spawnEnemies g dt side c = { g with enemySpawnTimer := g.enemySpawnTimer + dt } := by
  unfold spawnEnemies
  simp only [ENEMY_SPAWN_INTERVAL]
  rw [if_neg (not_le.2 h)]

end

/-- C15: when `t + dt ≥ 2` the spawner appends exactly one id, the registry's next id
(absent from the live list of a registry whose live ids are below its counter), gives it
EnemyTag, a Transform on a screen edge, a Shape of radius 15 and a zero Velocity, keeps
every lookup at another entity and sets the timer to 0, however large `t + dt` is; when
`t + dt < 2` the registry and the store are unchanged and the timer is `t + dt`. -/
theorem C15_spawnEnemies_one_per_interval {F : Type} [LinearOrderedField F] (g : Game F)
    (dt : F) (spawnSide : Int) (coordinate : F) :
    (g.enemySpawnTimer + dt ≥ 2 →
      (spawnEnemies g dt spawnSide coordinate).entityManager.getEntities =
        g.entityManager.getEntities ++ [g.entityManager.nextEntity] ∧
      (spawnEnemies g dt spawnSide coordinate).entityManager.nextEntity =
        g.entityManager.nextEntity + 1 ∧
      ((∀ x ∈ g.entityManager.getEntities, x < g.entityManager.nextEntity) →
        g.entityManager.nextEntity ∉ g.entityManager.getEntities) ∧
      ((spawnEnemies g dt spawnSide coordinate).componentManager.getComponent .enemyTag
        g.entityManager.nextEntity).1 = some ⟨⟩ ∧
      (∃ t : Transform F,
        ((spawnEnemies g dt spawnSide coordinate).componentManager.getComponent .transform
          g.entityManager.nextEntity).1 = some t ∧
        (t.position.x = 0 ∨ t.position.x = 800 ∨ t.position.y = 0 ∨ t.position.y = 600)) ∧
      (∃ s : Shape F,
        ((spawnEnemies g dt spawnSide coordinate).componentManager.getComponent .shape
          g.entityManager.nextEntity).1 = some s ∧ s.radius = 15) ∧
      ((spawnEnemies g dt spawnSide coordinate).componentManager.getComponent .velocity
        g.entityManager.nextEntity).1 = some ⟨⟨0, 0⟩⟩ ∧
      (∀ (K : Kind) (e : Entity), e ≠ g.entityManager.nextEntity →
        ((spawnEnemies g dt spawnSide coordinate).componentManager.getComponent K e).1 =
          (g.componentManager.getComponent K e).1) ∧
      (spawnEnemies g dt spawnSide coordinate).enemySpawnTimer = 0) ∧
    (g.enemySpawnTimer + dt < 2 →
      (spawnEnemies g dt spawnSide coordinate).entityManager = g.entityManager ∧
      (spawnEnemies g dt spawnSide coordinate).componentManager = g.componentManager ∧
      (spawnEnemies g dt spawnSide coordinate).enemySpawnTimer = g.enemySpawnTimer + dt) := by
  refine ⟨?_, ?_⟩
  · intro h
    rw [spawnEnemies_of_ge g dt spawnSide coordinate h]
    obtain ⟨h1, h2, h3, h4, -, -⟩ :=
      createEnemy_inner_new { g with enemySpawnTimer := g.enemySpawnTimer + dt } spawnSide
        coordinate
    refine ⟨rfl, rfl, ?_, h1, ⟨_, h4, ?_⟩, ⟨_, h3, rfl⟩, h2, ?_, rfl⟩
    · intro hlt hmem
      exact lt_irrefl _ (hlt _ hmem)
    · show (if spawnSide = 0 then (⟨0, coordinate⟩ : Vector2f F) else _).x = 0 ∨ _
      split_ifs
      · exact Or.inl rfl
      · exact Or.inr (Or.inl rfl)
      · exact Or.inr (Or.inr (Or.inl rfl))
      · exact Or.inr (Or.inr (Or.inr rfl))
    · intro K e he
      exact createEnemy_inner_entity { g with enemySpawnTimer := g.enemySpawnTimer + dt }
        spawnSide coordinate K e he
  · intro h
    rw [spawnEnemies_of_lt g dt spawnSide coordinate h]
    exact ⟨rfl, rfl, rfl⟩

/-- Witness of C15: a timer of 1 and a step of 5 spawn entity 2 on the bottom edge and
reset the timer; a step of 1/2 only advances the timer to 3/2. -/
theorem C15_spawnEnemies_one_per_interval_witness :
    barePlayerSample.enemySpawnTimer + 5 ≥ 2 ∧
    (spawnEnemies barePlayerSample 5 3 17).entityManager.getEntities = [0, 1, 2] ∧
    (spawnEnemies barePlayerSample 5 3 17).enemySpawnTimer = 0 ∧
    barePlayerSample.enemySpawnTimer + 1 / 2 < 2 ∧
    (spawnEnemies barePlayerSample (1 / 2) 3 17).entityManager.getEntities = [0, 1] ∧
    (spawnEnemies barePlayerSample (1 / 2) 3 17).enemySpawnTimer = 3 / 2 := by
  have hge : barePlayerSample.enemySpawnTimer + 5 ≥ 2 := by
    show (1 : ℚ) + 5 ≥ 2
    norm_num
  have hlt : barePlayerSample.enemySpawnTimer + 1 / 2 < 2 := by
    show (1 : ℚ) + 1 / 2 < 2
    norm_num
  have h1 := (C15_spawnEnemies_one_per_interval barePlayerSample 5 3 17).1 hge
  have h2 := (C15_spawnEnemies_one_per_interval barePlayerSample (1 / 2) 3 17).2 hlt
  refine ⟨hge, h1.1.trans rfl, h1.2.2.2.2.2.2.2.2, hlt, ?_, ?_⟩
  · rw [h2.1]; rfl
  · rw [h2.2.2]
    show (1 : ℚ) + 1 / 2 = 3 / 2
    norm_num

/-! ## Defensive absence and the game-over latch -/

theorem Game.unchangedFrom_refl {F : Type} (g : Game F) : g.unchangedFrom g :=
  ⟨rfl, rfl, rfl, rfl, fun _ _ => rfl⟩

theorem Game.unchangedFrom_trans {F : Type} {g1 g2 g3 : Game F} (h12 : g2.unchangedFrom g1)
    (h23 : g3.unchangedFrom g2) : g3.unchangedFrom g1 :=
  ⟨h23.1.trans h12.1, h23.2.1.trans h12.2.1, h23.2.2.1.trans h12.2.2.1,
    h23.2.2.2.1.trans h12.2.2.2.1, fun K e => (h23.2.2.2.2 K e).trans (h12.2.2.2.2 K e)⟩

theorem foldl_touch_inner {F : Type}
    (f : ComponentManager F → Entity → ComponentManager F)
    (hf : ∀ cm e K, (f cm e).inner K = cm.inner K) (l : List Entity)
    (cm : ComponentManager F) (K : Kind) : (l.foldl f cm).inner K = cm.inner K := by
  induction l generalizing cm with
  | nil => rfl
  | cons a l ih => rw [List.foldl_cons, ih, hf]

theorem render_unchangedFrom {F : Type} (g : Game F) : (render g).unchangedFrom g := by
  refine ⟨rfl, rfl, rfl, rfl, fun K e => ?_⟩
  simp only [ComponentManager.getComponent_fst, render]
  rw [foldl_touch_inner]
  intro cm e' K'
  simp only [ComponentManager.getComponent_eq, ComponentManager.inner_touch]

theorem updateDebugOverlay_unchangedFrom {F : Type} (g : Game F) :
    (updateDebugOverlay g).unchangedFrom g := by
  refine ⟨rfl, rfl, rfl, rfl, fun K e => ?_⟩
  simp only [ComponentManager.getComponent_fst, updateDebugOverlay,
    ComponentManager.getComponent_eq, ComponentManager.inner_touch]
  rw [foldl_touch_inner]
  intro cm e' K'
  simp only [ComponentManager.inner_touch]

section
variable {F : Type} [LinearOrderedField F]
open ComponentManager

theorem frame_of_isGameOver (sqrt : F → F) (keys : Keyboard) (dt : F) (side : Int) (c : F)
    (g : Game F) (h : g.isGameOver = true) :
    frame sqrt keys dt side c g = updateDebugOverlay (render g) := by
  unfold frame
  simp only [h, if_true]

theorem frame_unchangedFrom (sqrt : F → F) (keys : Keyboard) (dt : F) (side : Int) (c : F)
    (g : Game F) (h : g.isGameOver = true) :
    (frame sqrt keys dt side c g).unchangedFrom g := by
  rw [frame_of_isGameOver sqrt keys dt side c g h]
  exact Game.unchangedFrom_trans (render_unchangedFrom g)
    (updateDebugOverlay_unchangedFrom (render g))

theorem runFrames_unchangedFrom (sqrt : F → F) (inputs : List (FrameInput F)) (g : Game F)
    (h : g.isGameOver = true) : (runFrames sqrt inputs g).unchangedFrom g := by
  induction inputs generalizing g with
  | nil => exact Game.unchangedFrom_refl g
  | cons i is ih =>
    have h1 := frame_unchangedFrom sqrt i.keys i.deltaTime i.spawnSide i.coordinate g h
    have h2 := ih (frame sqrt i.keys i.deltaTime i.spawnSide i.coordinate g)
      (h1.2.2.2.1.trans h)
    exact Game.unchangedFrom_trans h1 h2

theorem handleInput_unchangedFrom (g : Game F) (keys : Keyboard)
    (h : g.componentManager.inner Kind.velocity g.player = none) :
    (handleInput g keys).unchangedFrom g := by
  obtain ⟨h1, h2, h3, h4⟩ := handleInput_fields g keys
  refine ⟨h1, h2, h3, h4, fun K e => ?_⟩
  simp only [getComponent_fst]
  by_cases hK : K = Kind.velocity
  · subst hK
    by_cases he : e = g.player
    · subst he
      rw [handleInput_inner_player, h]
    · exact handleInput_inner_entity g keys e he
  · rw [handleInput_inner_kind g keys K hK]

theorem updateEnemyAI_unchangedFrom (sqrt : F → F) (g : Game F)
    (h : g.componentManager.inner Kind.transform g.player = none) :
    (updateEnemyAI sqrt g).unchangedFrom g := by
  unfold updateEnemyAI
  simp only [getComponent_eq, h]
  refine ⟨rfl, rfl, rfl, rfl, fun K e => ?_⟩
  simp only [getComponent_fst, inner_touch]

theorem checkCollisions_unchangedFrom (g : Game F)
    (h : g.componentManager.inner Kind.transform g.player = none ∨
      g.componentManager.inner Kind.shape g.player = none ∨
      g.componentManager.inner Kind.health g.player = none) :
    (checkCollisions g).unchangedFrom g := by
  have hc : checkCollisions g =
      { g with componentManager :=
        ((g.componentManager.touch Kind.transform).touch Kind.shape).touch Kind.health } := by
    unfold checkCollisions
    simp only [getComponent_eq, inner_touch]
    rcases h with h | h | h
    · rw [h]
    · rw [h]
      cases g.componentManager.inner Kind.transform g.player <;> rfl
    · rw [h]
      cases g.componentManager.inner Kind.transform g.player <;>
        cases g.componentManager.inner Kind.shape g.player <;> rfl
  rw [hc]
  refine ⟨rfl, rfl, rfl, rfl, fun K e => ?_⟩
  simp only [getComponent_eq, inner_touch]

end

/-- C14: once `isGameOver` is set, an iteration of the loop of `run`, whatever the step,
the keys and the random draws, leaves the registry, every component lookup (the player's
hp among them), the spawn timer, the player id and the flag as they are, and so does any
number of iterations: the flag is never cleared and no system runs again. -/
theorem C14_gameOver_latch {F : Type} [LinearOrderedField F] (sqrt : F → F) (g : Game F)
    (h : g.isGameOver = true) (keys : Keyboard) (dt : F) (spawnSide : Int) (coordinate : F)
    (inputs : List (FrameInput F)) :
    (frame sqrt keys dt spawnSide coordinate g).unchangedFrom g ∧
    (frame sqrt keys dt spawnSide coordinate g).isGameOver = true ∧
    (runFrames sqrt inputs g).unchangedFrom g ∧
    (runFrames sqrt inputs g).isGameOver = true :=
  ⟨frame_unchangedFrom sqrt keys dt spawnSide coordinate g h,
    (frame_unchangedFrom sqrt keys dt spawnSide coordinate g h).2.2.2.1.trans h,
    runFrames_unchangedFrom sqrt inputs g h,
    (runFrames_unchangedFrom sqrt inputs g h).2.2.2.1.trans h⟩

/-- Witness of C14: in a game-over state with an overlapping enemy, a long frame with
keys pressed moves nothing, spawns nothing and costs no hp. -/
theorem C14_gameOver_latch_witness :
    gameOverSample.isGameOver = true ∧
    (frame (fun x => x) ⟨true, false, false, false, false, false, true, false⟩ 5 0 100
      gameOverSample).entityManager.getEntities = [0, 1, 2] ∧
    ((frame (fun x => x) ⟨true, false, false, false, false, false, true, false⟩ 5 0 100
      gameOverSample).componentManager.getComponent .health 0).1 = some ⟨0⟩ ∧
    (frame (fun x => x) ⟨true, false, false, false, false, false, true, false⟩ 5 0 100
      gameOverSample).isGameOver = true := by
  have h := C14_gameOver_latch (fun x => x) gameOverSample rfl
    ⟨true, false, false, false, false, false, true, false⟩ 5 0 100 []
  refine ⟨rfl, ?_, ?_, h.2.1⟩
  · rw [h.1.1]; rfl
  · rw [h.1.2.2.2.2 Kind.health 0]; rfl

/-- C18: a system whose player component is missing does nothing that can be seen: with
no Velocity on the player `handleInput`, with no Transform on the player `updateEnemyAI`,
and with a Transform, Shape or Health missing on the player `checkCollisions` leave the
registry, the timer, the player id, the flag and every component lookup unchanged. Each
system is a total function that branches on the absent lookup and reads no value. -/
theorem C18_absent_component_noop {F : Type} [LinearOrderedField F] (sqrt : F → F)
    (g : Game F) (keys : Keyboard) :
    ((g.componentManager.getComponent .velocity g.player).1 = none →
      (handleInput g keys).unchangedFrom g) ∧
    ((g.componentManager.getComponent .transform g.player).1 = none →
      (updateEnemyAI sqrt g).unchangedFrom g) ∧
    (((g.componentManager.getComponent .transform g.player).1 = none ∨
        (g.componentManager.getComponent .shape g.player).1 = none ∨
        (g.componentManager.getComponent .health g.player).1 = none) →
      (checkCollisions g).unchangedFrom g) :=
  ⟨handleInput_unchangedFrom g keys, updateEnemyAI_unchangedFrom sqrt g,
    checkCollisions_unchangedFrom g⟩

/-- Witness of C18: a player without Transform, Shape and Velocity. -/
theorem C18_absent_component_noop_witness :
    (barePlayerSample.componentManager.getComponent .velocity barePlayerSample.player).1
      = none ∧
    (barePlayerSample.componentManager.getComponent .transform barePlayerSample.player).1
      = none ∧
    (handleInput barePlayerSample
      ⟨true, false, false, false, false, false, true, false⟩).unchangedFrom barePlayerSample ∧
    (updateEnemyAI (fun x => x) barePlayerSample).unchangedFrom barePlayerSample ∧
    (checkCollisions barePlayerSample).unchangedFrom barePlayerSample :=
  ⟨rfl, rfl,
    (C18_absent_component_noop (fun x => x) barePlayerSample
      ⟨true, false, false, false, false, false, true, false⟩).1 rfl,
    (C18_absent_component_noop (fun x => x) barePlayerSample
      ⟨true, false, false, false, false, false, true, false⟩).2.1 rfl,
    (C18_absent_component_noop (fun x => x) barePlayerSample
      ⟨true, false, false, false, false, false, true, false⟩).2.2 (Or.inl rfl)⟩

/-! ## The collision system -/

section
variable {F : Type} [LinearOrderedField F]
open ComponentManager

theorem checkCircleCollision_eq_decide (p1 p2 : Vector2f F) (r1 r2 : F) :
    checkCircleCollision p1 r1 p2 r2 =
      decide ((p1.x - p2.x) ^ 2 + (p1.y - p2.y) ^ 2 < (r1 + r2) ^ 2) := by
  simp [checkCircleCollision, sq]

theorem overlapsPlayer_congr (cm cm' : ComponentManager F) (pt : Transform F) (ps : Shape F)
    (h : ∀ K : Kind, K ≠ Kind.health → cm'.inner K = cm.inner K) (e : Entity) :
    overlapsPlayer cm' pt ps e = overlapsPlayer cm pt ps e := by
  unfold overlapsPlayer
  simp only [getComponent_fst, h Kind.enemyTag (by decide), h Kind.transform (by decide),
    h Kind.shape (by decide)]

/-- What one iteration of the scan does, by the outcome of the overlap test. -/
theorem checkCollisionsStep_spec (player : Entity) (pt : Transform F) (ps : Shape F)
    (st : CollisionScan F) (e : Entity) :
    (overlapsPlayer st.componentManager pt ps e = true →
      (checkCollisionsStep player pt ps st e).playerHealth = ⟨st.playerHealth.hp - 10⟩ ∧
      (checkCollisionsStep player pt ps st e).entitiesToDestroy =
        st.entitiesToDestroy ++ [e] ∧
      (checkCollisionsStep player pt ps st e).isGameOver =
        (if st.playerHealth.hp - 10 ≤ 0 then true else st.isGameOver) ∧
      (checkCollisionsStep player pt ps st e).componentManager.inner Kind.health player =
        some ⟨st.playerHealth.hp - 10⟩ ∧
      ∀ e' : Entity, e' ≠ player →
        (checkCollisionsStep player pt ps st e).componentManager.inner Kind.health e' =
          st.componentManager.inner Kind.health e') ∧
    (overlapsPlayer st.componentManager pt ps e = false →
      (checkCollisionsStep player pt ps st e).playerHealth = st.playerHealth ∧
      (checkCollisionsStep player pt ps st e).entitiesToDestroy = st.entitiesToDestroy ∧
      (checkCollisionsStep player pt ps st e).isGameOver = st.isGameOver ∧
      (checkCollisionsStep player pt ps st e).componentManager.inner Kind.health =
        st.componentManager.inner Kind.health) ∧
    ∀ K : Kind, K ≠ Kind.health →
      (checkCollisionsStep player pt ps st e).componentManager.inner K =
        st.componentManager.inner K := by
  unfold checkCollisionsStep overlapsPlayer
  simp only [getComponent_eq, inner_touch, checkCircleCollision_eq_decide]
  cases h1 : st.componentManager.inner Kind.enemyTag e with
  | none => simp [inner_touch]
  | some tag =>
    cases h2 : st.componentManager.inner Kind.transform e with
    | none => simp [inner_touch]
    | some et =>
      cases h3 : st.componentManager.inner Kind.shape e with
      | none => simp [inner_touch]
      | some es =>
        simp only
        by_cases hc : (pt.position.x - et.position.x) ^ 2 +
            (pt.position.y - et.position.y) ^ 2 < (ps.radius + es.radius) ^ 2
        · simp only [hc, decide_True, if_true, true_implies, inner_assign_self,
            false_implies, true_and, and_true]
          refine ⟨?_, ?_, ?_⟩
          · intro e' he'
            rw [inner_assign_entity _ _ _ _ _ he']
            simp only [inner_touch]
          · intro h
            cases h
          · intro K hK
            rw [inner_assign_kind _ _ _ _ _ hK]
            simp only [inner_touch]
        · simp [hc, inner_touch]

/-- The scan of `checkCollisions` over a list of entities: the entities queued are those
that pass the overlap test, each costs 10 hp, only the player's Health is written, and the
flag is set exactly when it was set before or some decrement left the hp at 0 or below. -/
theorem checkCollisions_scan_spec (player : Entity) (pt : Transform F) (ps : Shape F)
    (l : List Entity) (st : CollisionScan F) :
    (l.foldl (checkCollisionsStep player pt ps) st).entitiesToDestroy =
      st.entitiesToDestroy ++ l.filter (overlapsPlayer st.componentManager pt ps) ∧
    (l.foldl (checkCollisionsStep player pt ps) st).playerHealth.hp =
      st.playerHealth.hp -
        10 * ((l.filter (overlapsPlayer st.componentManager pt ps)).length : Int) ∧
    (∀ K : Kind, K ≠ Kind.health →
      (l.foldl (checkCollisionsStep player pt ps) st).componentManager.inner K =
        st.componentManager.inner K) ∧
    (∀ e' : Entity, e' ≠ player →
      (l.foldl (checkCollisionsStep player pt ps) st).componentManager.inner Kind.health e' =
        st.componentManager.inner Kind.health e') ∧
    (l.foldl (checkCollisionsStep player pt ps) st).componentManager.inner Kind.health player =
      (if l.filter (overlapsPlayer st.componentManager pt ps) = [] then
        st.componentManager.inner Kind.health player
      else some (l.foldl (checkCollisionsStep player pt ps) st).playerHealth) ∧
    ((l.foldl (checkCollisionsStep player pt ps) st).isGameOver = true ↔
      st.isGameOver = true ∨
        (l.filter (overlapsPlayer st.componentManager pt ps) ≠ [] ∧
          (l.foldl (checkCollisionsStep player pt ps) st).playerHealth.hp ≤ 0)) := by
  induction l generalizing st with
  | nil => simp
  | cons a l ih =>
    obtain ⟨hyes, hno, hkind⟩ := checkCollisionsStep_spec player pt ps st a
    have hcongr : overlapsPlayer (checkCollisionsStep player pt ps st a).componentManager pt ps
        = overlapsPlayer st.componentManager pt ps :=
      funext (overlapsPlayer_congr _ _ pt ps hkind)
    obtain ⟨i1, i2, i3, i4, i5, i6⟩ := ih (checkCollisionsStep player pt ps st a)
    rw [hcongr] at i1 i2 i5 i6
    rw [List.foldl_cons]
    cases hov : overlapsPlayer st.componentManager pt ps a with
    | true =>
      obtain ⟨s1, s2, s3, s4, s5⟩ := hyes hov
      rw [List.filter_cons_of_pos hov]
      rw [s1] at i2
      dsimp only at i2
      rw [s2] at i1
      rw [s3] at i6
      rw [s4] at i5
      refine ⟨?_, ?_, ?_, ?_, ?_, ?_⟩
      · rw [i1]; simp
      · rw [i2, List.length_cons]; push_cast; ring
      · intro K hK
        rw [i3 K hK, hkind K hK]
      · intro e' he'
        rw [i4 e' he', s5 e' he']
      · rw [if_neg (List.cons_ne_nil _ _), i5]
        split_ifs with hD
        · rw [hD] at i2
          simp only [List.length_nil, Nat.cast_zero, mul_zero, sub_zero] at i2
          rw [← i2]
        · rfl
      · rw [i6]
        constructor
        · rintro (h | ⟨_, h⟩)
          · by_cases h10 : st.playerHealth.hp - 10 ≤ 0
            · right
              refine ⟨List.cons_ne_nil _ _, ?_⟩
              rw [i2]
              omega
            · rw [if_neg h10] at h
              exact Or.inl h
          · exact Or.inr ⟨List.cons_ne_nil _ _, h⟩
        · rintro (h | ⟨_, h⟩)
          · left
            split_ifs
            · rfl
            · exact h
          · by_cases h10 : st.playerHealth.hp - 10 ≤ 0
            · left
              rw [if_pos h10]
            · by_cases hD : l.filter (overlapsPlayer st.componentManager pt ps) = []
              · exfalso
                rw [i2, hD] at h
                simp only [List.length_nil, Nat.cast_zero, mul_zero, sub_zero] at h
                exact h10 h
              · exact Or.inr ⟨hD, h⟩
    | false =>
      obtain ⟨s1, s2, s3, s4⟩ := hno hov
      rw [List.filter_cons_of_neg (by simp [hov])]
      rw [s1] at i2
      rw [s2] at i1
      rw [s3] at i6
      rw [s4] at i5
      refine ⟨i1, i2, ?_, ?_, i5, i6⟩
      · intro K hK
        rw [i3 K hK, hkind K hK]
      · intro e' he'
        rw [i4 e' he', s4]

end

/-- The destruction pass: every queued id leaves the registry and loses all its
components, the rest is untouched. -/
theorem checkCollisions_destroy_spec {F : Type} (d : List Entity) (em : EntityManager)
    (cm : ComponentManager F) :
    (d.foldl (fun (st : EntityManager × ComponentManager F) e =>
        (st.1.destroyEntity e, st.2.removeEntity e)) (em, cm)).1 =
      ⟨em.entities.filter (fun x => decide (x ∉ d)), em.nextEntity⟩ ∧
    ∀ (K : Kind) (e : Entity),
      (d.foldl (fun (st : EntityManager × ComponentManager F) e =>
          (st.1.destroyEntity e, st.2.removeEntity e)) (em, cm)).2.inner K e =
        if e ∈ d then none else cm.inner K e := by
  induction d generalizing em cm with
  | nil => simp
  | cons a d ih =>
    rw [List.foldl_cons]
    obtain ⟨h1, h2⟩ := ih (em.destroyEntity a) (cm.removeEntity a)
    refine ⟨?_, ?_⟩
    · rw [h1]
      simp only [EntityManager.destroyEntity, List.filter_filter, EntityManager.mk.injEq,
        and_true]
      apply List.filter_congr
      intro x _
      simp [Bool.and_comm]
    · intro K e
      rw [h2 K e, ComponentManager.inner_removeEntity]
      by_cases hea : e = a
      · subst hea; simp
      · by_cases hed : e ∈ d
        · simp [hed]
        · simp [hea, hed]

section
variable {F : Type} [LinearOrderedField F]
open ComponentManager

/-- The whole of `checkCollisions` when the player has Transform, Shape and Health: the
live entities passing the overlap test are destroyed with all their components, each
costs 10 hp, and the flag is set when it was set or a collision left the hp at 0 or
below. -/
theorem checkCollisions_spec (g : Game F) (pt : Transform F) (ps : Shape F) (ph : Health)
    (hpt : g.componentManager.inner Kind.transform g.player = some pt)
    (hps : g.componentManager.inner Kind.shape g.player = some ps)
    (hph : g.componentManager.inner Kind.health g.player = some ph) :
    (checkCollisions g).entityManager =
      ⟨g.entityManager.entities.filter
        (fun x => !overlapsPlayer g.componentManager pt ps x), g.entityManager.nextEntity⟩ ∧
    (∀ (K : Kind) (e : Entity), e ∈ g.entityManager.entities →
      overlapsPlayer g.componentManager pt ps e = true →
      (checkCollisions g).componentManager.inner K e = none) ∧
    (∀ (K : Kind) (e : Entity),
      (e ∉ g.entityManager.entities ∨ overlapsPlayer g.componentManager pt ps e = false) →
      (K ≠ Kind.health ∨ e ≠ g.player) →
      (checkCollisions g).componentManager.inner K e = g.componentManager.inner K e) ∧
    ((g.player ∉ g.entityManager.entities ∨
        overlapsPlayer g.componentManager pt ps g.player = false) →
      (checkCollisions g).componentManager.inner Kind.health g.player =
        some ⟨ph.hp - 10 * ((g.entityManager.entities.filter
          (overlapsPlayer g.componentManager pt ps)).length : Int)⟩) ∧
    ((checkCollisions g).isGameOver = true ↔
      g.isGameOver = true ∨
        (g.entityManager.entities.filter (overlapsPlayer g.componentManager pt ps) ≠ [] ∧
          ph.hp - 10 * ((g.entityManager.entities.filter
            (overlapsPlayer g.componentManager pt ps)).length : Int) ≤ 0)) ∧
    (checkCollisions g).enemySpawnTimer = g.enemySpawnTimer ∧
    (checkCollisions g).player = g.player := by
  have htouch : ∀ K : Kind,
      (((g.componentManager.touch Kind.transform).touch Kind.shape).touch Kind.health).inner K
        = g.componentManager.inner K := by
    intro K
    simp only [inner_touch]
  have hov : overlapsPlayer
      (((g.componentManager.touch Kind.transform).touch Kind.shape).touch Kind.health) pt ps
        = overlapsPlayer g.componentManager pt ps :=
    funext (overlapsPlayer_congr _ _ pt ps (fun K _ => htouch K))
  obtain ⟨c1, c2, c3, c4, c5, c6⟩ := checkCollisions_scan_spec g.player pt ps
    g.entityManager.entities
    { componentManager :=
        ((g.componentManager.touch Kind.transform).touch Kind.shape).touch Kind.health
      playerHealth := ph, entitiesToDestroy := [], isGameOver := g.isGameOver }
  simp only [hov, List.nil_append, htouch] at c1 c2 c3 c4 c5 c6
  have hmem : ∀ e : Entity,
      e ∈ g.entityManager.entities.filter (overlapsPlayer g.componentManager pt ps) ↔
        e ∈ g.entityManager.entities ∧ overlapsPlayer g.componentManager pt ps e = true := by
    intro e
    exact List.mem_filter
  have hdestroy := checkCollisions_destroy_spec
    (g.entityManager.entities.filter (overlapsPlayer g.componentManager pt ps))
    g.entityManager
    (g.entityManager.entities.foldl (checkCollisionsStep g.player pt ps)
      { componentManager :=
          ((g.componentManager.touch Kind.transform).touch Kind.shape).touch Kind.health
        playerHealth := ph, entitiesToDestroy := [],
        isGameOver := g.isGameOver }).componentManager
  obtain ⟨d1, d2⟩ := hdestroy
  have hcc : checkCollisions g =
      { g with
        entityManager := ((g.entityManager.entities.filter
          (overlapsPlayer g.componentManager pt ps)).foldl
            (fun (st : EntityManager × ComponentManager F) e =>
              (st.1.destroyEntity e, st.2.removeEntity e))
            (g.entityManager, (g.entityManager.entities.foldl
              (checkCollisionsStep g.player pt ps)
              { componentManager :=
                  ((g.componentManager.touch Kind.transform).touch Kind.shape).touch
                    Kind.health
                playerHealth := ph, entitiesToDestroy := [],
                isGameOver := g.isGameOver }).componentManager)).1
        componentManager := ((g.entityManager.entities.filter
          (overlapsPlayer g.componentManager pt ps)).foldl
            (fun (st : EntityManager × ComponentManager F) e =>
              (st.1.destroyEntity e, st.2.removeEntity e))
            (g.entityManager, (g.entityManager.entities.foldl
              (checkCollisionsStep g.player pt ps)
              { componentManager :=
                  ((g.componentManager.touch Kind.transform).touch Kind.shape).touch
                    Kind.health
                playerHealth := ph, entitiesToDestroy := [],
                isGameOver := g.isGameOver }).componentManager)).2
        isGameOver := (g.entityManager.entities.foldl
          (checkCollisionsStep g.player pt ps)
          { componentManager :=
              ((g.componentManager.touch Kind.transform).touch Kind.shape).touch Kind.health
            playerHealth := ph, entitiesToDestroy := [],
            isGameOver := g.isGameOver }).isGameOver } := by
    unfold checkCollisions
    simp only [getComponent_eq, inner_touch, hpt, hps, hph, EntityManager.getEntities,
      checkCollisionsScan, c1]
  rw [hcc]
  refine ⟨?_, ?_, ?_, ?_, ?_, rfl, rfl⟩
  · show _ = _
    rw [d1]
    simp only [EntityManager.mk.injEq, and_true]
    apply List.filter_congr
    intro x hx
    simp [hmem, hx]
  · intro K e he hove
    show _ = _
    rw [d2 K e, if_pos ((hmem e).2 ⟨he, hove⟩)]
  · intro K e he hKe
    have hnot : e ∉ g.entityManager.entities.filter (overlapsPlayer g.componentManager pt ps) := by
      intro hin
      obtain ⟨h1, h2⟩ := (hmem e).1 hin
      rcases he with he | he
      · exact he h1
      · rw [h2] at he; cases he
    show _ = _
    rw [d2 K e, if_neg hnot]
    by_cases hK : K = Kind.health
    · subst hK
      have hep : e ≠ g.player := by
        rcases hKe with h | h
        · exact absurd rfl h
        · exact h
      exact c4 e hep
    · rw [c3 K hK]
  · intro hp
    have hnot : g.player ∉
        g.entityManager.entities.filter (overlapsPlayer g.componentManager pt ps) := by
      intro hin
      obtain ⟨h1, h2⟩ := (hmem g.player).1 hin
      rcases hp with hp | hp
      · exact hp h1
      · rw [h2] at hp; cases hp
    show _ = _
    rw [d2 Kind.health g.player, if_neg hnot, c5]
    split_ifs with hD
    · rw [hph, hD]; simp
    · rw [← c2]
  · show _ ↔ _
    rw [c6, c2]

end

section
variable {F : Type} [LinearOrderedField F]
open ComponentManager

theorem overlapsPlayer_of_no_enemyTag (cm : ComponentManager F) (pt : Transform F)
    (ps : Shape F) (e : Entity) (h : cm.inner Kind.enemyTag e = none) :
    overlapsPlayer cm pt ps e = false := by
  unfold overlapsPlayer
  simp only [getComponent_fst, h]

theorem collisionSample_overlaps (hp : Int) :
    overlapsPlayer (collisionSample F hp).componentManager ⟨⟨0, 0⟩, 0, ⟨20, 20⟩⟩
        ⟨ShapeType.Circle, Color.Green, 20⟩ 0 = false ∧
    overlapsPlayer (collisionSample F hp).componentManager ⟨⟨0, 0⟩, 0, ⟨20, 20⟩⟩
        ⟨ShapeType.Circle, Color.Green, 20⟩ 1 = true ∧
    overlapsPlayer (collisionSample F hp).componentManager ⟨⟨0, 0⟩, 0, ⟨20, 20⟩⟩
        ⟨ShapeType.Circle, Color.Green, 20⟩ 2 = false := by
  refine ⟨rfl, ?_, ?_⟩
  · show decide (((0 : F) - 10) ^ 2 + ((0 : F) - 0) ^ 2 < ((20 : F) + 15) ^ 2) = true
    norm_num
  · show decide (((0 : F) - 500) ^ 2 + ((0 : F) - 500) ^ 2 < ((20 : F) + 15) ^ 2) = false
    norm_num

theorem collisionSample_filter (hp : Int) :
    (collisionSample F hp).entityManager.entities.filter
      (overlapsPlayer (collisionSample F hp).componentManager ⟨⟨0, 0⟩, 0, ⟨20, 20⟩⟩
        ⟨ShapeType.Circle, Color.Green, 20⟩) = [1] := by
  obtain ⟨h0, h1, h2⟩ := collisionSample_overlaps (F := F) hp
  show List.filter _ [0, 1, 2] = [1]
  simp [List.filter, h0, h1, h2]

end

/-- The hp behind `playerHealth` when the scan of `checkCollisions` ends: 10 less for
each live entity that passed the overlap test. -/
theorem checkCollisionsScan_hp {F : Type} [LinearOrderedField F] (g : Game F)
    (pt : Transform F) (ps : Shape F) (ph : Health) :
    (checkCollisionsScan g
      (((g.componentManager.getComponent .transform g.player).2.getComponent
        .shape g.player).2.getComponent .health g.player).2 pt ps ph).playerHealth.hp =
      ph.hp - 10 * ((g.entityManager.getEntities.filter
        (overlapsPlayer g.componentManager pt ps)).length : Int) := by
  have htouch : ∀ K : Kind,
      (((g.componentManager.touch Kind.transform).touch Kind.shape).touch Kind.health).inner K
        = g.componentManager.inner K := by
    intro K
    simp only [ComponentManager.inner_touch]
  have hov : overlapsPlayer
      (((g.componentManager.touch Kind.transform).touch Kind.shape).touch Kind.health) pt ps
        = overlapsPlayer g.componentManager pt ps :=
    funext (overlapsPlayer_congr _ _ pt ps (fun K _ => htouch K))
  have h := (checkCollisions_scan_spec g.player pt ps g.entityManager.getEntities
    { componentManager :=
        ((g.componentManager.touch Kind.transform).touch Kind.shape).touch Kind.health
      playerHealth := ph, entitiesToDestroy := [], isGameOver := g.isGameOver }).2.1
  simp only [hov] at h
  exact h

/-- C11: on a live list without duplicates, when the player has Transform, Shape and
Health, the hp that `checkCollisions` leaves behind its pointer `playerHealth` when the
scan ends is `oldHp - 10 * k`, `k` being the number of live entities that have EnemyTag,
Transform and Shape and whose squared centre distance to the player is below the squared
sum of the radii, each of them costing 10 hp in the same pass; that is the hp stored for
the player after the pass unless the player is itself one of these entities, so whenever
the player carries no EnemyTag, as in every state that satisfies the invariant of the
reachable states. -/
theorem C11_checkCollisions_hp_loss {F : Type} [LinearOrderedField F] (g : Game F)
    (hnd : g.entityManager.getEntities.Nodup) (pt : Transform F) (ps : Shape F) (ph : Health)
    (hpt : (g.componentManager.getComponent .transform g.player).1 = some pt)
    (hps : (g.componentManager.getComponent .shape g.player).1 = some ps)
    (hph : (g.componentManager.getComponent .health g.player).1 = some ph) :
    (checkCollisionsScan g
      (((g.componentManager.getComponent .transform g.player).2.getComponent
        .shape g.player).2.getComponent .health g.player).2 pt ps ph).playerHealth.hp =
      ph.hp - 10 * (((g.entityManager.getEntities.filter
        (overlapsPlayer g.componentManager pt ps)).toFinset.card : Nat) : Int) ∧
    ((g.player ∉ g.entityManager.getEntities ∨
        overlapsPlayer g.componentManager pt ps g.player = false) →
      ((checkCollisions g).componentManager.getComponent .health g.player).1 =
        some ⟨ph.hp - 10 * (((g.entityManager.getEntities.filter
          (overlapsPlayer g.componentManager pt ps)).toFinset.card : Nat) : Int)⟩) ∧
    ((g.componentManager.getComponent .enemyTag g.player).1 = none →
      ((checkCollisions g).componentManager.getComponent .health g.player).1 =
        some ⟨ph.hp - 10 * (((g.entityManager.getEntities.filter
          (overlapsPlayer g.componentManager pt ps)).toFinset.card : Nat) : Int)⟩) ∧
    (g.Invariant →
      ((checkCollisions g).componentManager.getComponent .health g.player).1 =
        some ⟨ph.hp - 10 * (((g.entityManager.getEntities.filter
          (overlapsPlayer g.componentManager pt ps)).toFinset.card : Nat) : Int)⟩) := by
  have hscan := checkCollisionsScan_hp g pt ps ph
  simp only [ComponentManager.getComponent_fst, EntityManager.getEntities] at *
  rw [List.toFinset_card_of_nodup (hnd.filter _)]
  have hstored := (checkCollisions_spec g pt ps ph hpt hps hph).2.2.2.1
  refine ⟨hscan, hstored, ?_, ?_⟩
  · intro htag
    exact hstored (Or.inr (overlapsPlayer_of_no_enemyTag _ pt ps _ htag))
  · intro hinv
    have htag := hinv.2.2.2.2.1
    simp only [ComponentManager.getComponent_fst] at htag
    exact hstored (Or.inr (overlapsPlayer_of_no_enemyTag _ pt ps _ htag))

/-- Witness of C11: player of radius 20 at (0, 0) with 100 hp, one enemy of radius 15 at
(10, 0) and one far away; the hp drops by exactly 10. -/
theorem C11_checkCollisions_hp_loss_witness :
    (collisionSample ℚ 100).entityManager.getEntities.Nodup ∧
    ((collisionSample ℚ 100).componentManager.getComponent .enemyTag 0).1 = none ∧
    ((checkCollisions (collisionSample ℚ 100)).componentManager.getComponent .health 0).1 =
      some ⟨90⟩ := by
  refine ⟨by decide, rfl, ?_⟩
  have h := (C11_checkCollisions_hp_loss (collisionSample ℚ 100) (by decide)
    ⟨⟨0, 0⟩, 0, ⟨20, 20⟩⟩ ⟨ShapeType.Circle, Color.Green, 20⟩ ⟨100⟩ rfl rfl rfl).2.2.1 rfl
  have hf := collisionSample_filter (F := ℚ) 100
  simp only [EntityManager.getEntities] at h
  rw [hf] at h
  exact h.trans (by decide)

/-- C12: when the player has Transform, Shape and Health, after `checkCollisions` every
live entity that had EnemyTag, Transform and Shape and overlapped the player is out of the
live list and has no component of any kind; the live list is the old one without those
entities, in the same order; every other live entity keeps all its components, the
player's Health apart; so no live enemy with Transform and Shape overlaps the player when
the pass returns. -/
theorem C12_checkCollisions_destroys_overlapping {F : Type} [LinearOrderedField F]
    (g : Game F) (pt : Transform F) (ps : Shape F) (ph : Health)
    (hpt : (g.componentManager.getComponent .transform g.player).1 = some pt)
    (hps : (g.componentManager.getComponent .shape g.player).1 = some ps)
    (hph : (g.componentManager.getComponent .health g.player).1 = some ph) :
    (∀ e ∈ g.entityManager.getEntities, overlapsPlayer g.componentManager pt ps e = true →
      e ∉ (checkCollisions g).entityManager.getEntities ∧
      ∀ K : Kind, ((checkCollisions g).componentManager.getComponent K e).1 = none) ∧
    (checkCollisions g).entityManager.getEntities =
      g.entityManager.getEntities.filter
        (fun e => !overlapsPlayer g.componentManager pt ps e) ∧
    List.Sublist (checkCollisions g).entityManager.getEntities g.entityManager.getEntities ∧
    (∀ e ∈ g.entityManager.getEntities, overlapsPlayer g.componentManager pt ps e = false →
      e ∈ (checkCollisions g).entityManager.getEntities ∧
      ∀ K : Kind, (K ≠ Kind.health ∨ e ≠ g.player) →
        ((checkCollisions g).componentManager.getComponent K e).1 =
          (g.componentManager.getComponent K e).1) ∧
    (∀ e ∈ (checkCollisions g).entityManager.getEntities,
      ∀ (pt' : Transform F) (ps' : Shape F) (tag : EnemyTag) (et : Transform F)
        (es : Shape F),
      ((checkCollisions g).componentManager.getComponent .transform g.player).1 = some pt' →
      ((checkCollisions g).componentManager.getComponent .shape g.player).1 = some ps' →
      ((checkCollisions g).componentManager.getComponent .enemyTag e).1 = some tag →
      ((checkCollisions g).componentManager.getComponent .transform e).1 = some et →
      ((checkCollisions g).componentManager.getComponent .shape e).1 = some es →
      checkCircleCollision pt'.position ps'.radius et.position es.radius = false) := by
  simp only [ComponentManager.getComponent_fst, EntityManager.getEntities] at *
  obtain ⟨s1, s2, s3, -, -, -, -⟩ := checkCollisions_spec g pt ps ph hpt hps hph
  have hlive : ∀ e : Entity, e ∈ (checkCollisions g).entityManager.entities ↔
      e ∈ g.entityManager.entities ∧ overlapsPlayer g.componentManager pt ps e = false := by
    intro e
    rw [s1]
    simp [List.mem_filter]
  refine ⟨?_, ?_, ?_, ?_, ?_⟩
  · intro e he hov
    refine ⟨?_, fun K => s2 K e he hov⟩
    intro hin
    have := ((hlive e).1 hin).2
    rw [hov] at this
    cases this
  · rw [s1]
  · rw [s1]
    exact List.filter_sublist _
  · intro e he hov
    exact ⟨(hlive e).2 ⟨he, hov⟩, fun K hK => s3 K e (Or.inr hov) hK⟩
  · intro e he pt' ps' tag et es hpt' hps' htag het hes
    obtain ⟨_, hov⟩ := (hlive e).1 he
    have hkeep : ∀ K : Kind, K ≠ Kind.health →
        (checkCollisions g).componentManager.inner K e = g.componentManager.inner K e :=
      fun K hK => s3 K e (Or.inr hov) (Or.inl hK)
    rw [hkeep Kind.enemyTag (by decide)] at htag
    rw [hkeep Kind.transform (by decide)] at het
    rw [hkeep Kind.shape (by decide)] at hes
    have hplayer : g.player ∉ g.entityManager.entities ∨
        overlapsPlayer g.componentManager pt ps g.player = false := by
      by_cases hin : g.player ∈ g.entityManager.entities
      · right
        cases hp : overlapsPlayer g.componentManager pt ps g.player with
        | false => rfl
        | true =>
          rw [s2 Kind.transform g.player hin hp] at hpt'
          cases hpt'
      · exact Or.inl hin
    rw [s3 Kind.transform g.player hplayer (Or.inl (by decide)), hpt] at hpt'
    rw [s3 Kind.shape g.player hplayer (Or.inl (by decide)), hps] at hps'
    cases hpt'
    cases hps'
    rw [checkCircleCollision_eq_decide]
    unfold overlapsPlayer at hov
    simp only [ComponentManager.getComponent_fst, htag, het, hes] at hov
    exact hov

/-- Witness of C12: the enemy at (10, 0) is destroyed with its components, the player and
the far enemy stay, in order. -/
theorem C12_checkCollisions_destroys_overlapping_witness :
    (checkCollisions (collisionSample ℚ 100)).entityManager.getEntities = [0, 2] ∧
    ((checkCollisions (collisionSample ℚ 100)).componentManager.getComponent
      .transform 1).1 = none ∧
    ((checkCollisions (collisionSample ℚ 100)).componentManager.getComponent
      .enemyTag 2).1 = some ⟨⟩ := by
  have h := C12_checkCollisions_destroys_overlapping (collisionSample ℚ 100)
    ⟨⟨0, 0⟩, 0, ⟨20, 20⟩⟩ ⟨ShapeType.Circle, Color.Green, 20⟩ ⟨100⟩ rfl rfl rfl
  obtain ⟨h0, h1, h2⟩ := collisionSample_overlaps (F := ℚ) 100
  refine ⟨?_, ?_, ?_⟩
  · rw [h.2.1]
    show List.filter _ [0, 1, 2] = [0, 2]
    simp [List.filter, h0, h1, h2]
  · exact (h.1 1 (by decide) h1).2 Kind.transform
  · rw [(h.2.2.2.1 2 (by decide) h2).2 Kind.enemyTag (Or.inl (by decide))]
    rfl

/-- C13: when the player has Transform, Shape and Health and the flag is false, after
`checkCollisions` the flag is true exactly when some live entity passed the overlap test
and the player's resulting hp, `oldHp - 10 * k` for `k` collisions, which is the hp behind
`playerHealth` when the scan ends and the hp stored for the player unless the player is
itself destroyed, is at most 0; a pass without overlap, or with a positive resulting hp,
leaves the flag false. -/
theorem C13_checkCollisions_sets_gameOver {F : Type} [LinearOrderedField F] (g : Game F)
    (pt : Transform F) (ps : Shape F) (ph : Health)
    (hpt : (g.componentManager.getComponent .transform g.player).1 = some pt)
    (hps : (g.componentManager.getComponent .shape g.player).1 = some ps)
    (hph : (g.componentManager.getComponent .health g.player).1 = some ph)
    (hflag : g.isGameOver = false) :
    ((checkCollisions g).isGameOver = true ↔
      (∃ e ∈ g.entityManager.getEntities, overlapsPlayer g.componentManager pt ps e = true) ∧
      ph.hp - 10 * ((g.entityManager.getEntities.filter
        (overlapsPlayer g.componentManager pt ps)).length : Int) ≤ 0) ∧
    (checkCollisionsScan g
      (((g.componentManager.getComponent .transform g.player).2.getComponent
        .shape g.player).2.getComponent .health g.player).2 pt ps ph).playerHealth.hp =
      ph.hp - 10 * ((g.entityManager.getEntities.filter
        (overlapsPlayer g.componentManager pt ps)).length : Int) ∧
    ((g.player ∉ g.entityManager.getEntities ∨
        overlapsPlayer g.componentManager pt ps g.player = false) →
      ((checkCollisions g).componentManager.getComponent .health g.player).1 =
        some ⟨ph.hp - 10 * ((g.entityManager.getEntities.filter
          (overlapsPlayer g.componentManager pt ps)).length : Int)⟩) ∧
    ((∀ e ∈ g.entityManager.getEntities, overlapsPlayer g.componentManager pt ps e = false) →
      (checkCollisions g).isGameOver = false) ∧
    (0 < ph.hp - 10 * ((g.entityManager.getEntities.filter
        (overlapsPlayer g.componentManager pt ps)).length : Int) →
      (checkCollisions g).isGameOver = false) := by
  have hscan := checkCollisionsScan_hp g pt ps ph
  simp only [ComponentManager.getComponent_fst, EntityManager.getEntities] at *
  obtain ⟨-, -, -, s4, s5, -, -⟩ := checkCollisions_spec g pt ps ph hpt hps hph
  have hne : g.entityManager.entities.filter (overlapsPlayer g.componentManager pt ps) ≠ [] ↔
      ∃ e ∈ g.entityManager.entities, overlapsPlayer g.componentManager pt ps e = true := by
    rw [Ne, List.filter_eq_nil_iff]
    push_neg
    simp
  have key : (checkCollisions g).isGameOver = true ↔
      (∃ e ∈ g.entityManager.entities, overlapsPlayer g.componentManager pt ps e = true) ∧
      ph.hp - 10 * ((g.entityManager.entities.filter
        (overlapsPlayer g.componentManager pt ps)).length : Int) ≤ 0 := by
    rw [s5, ← hne]
    simp [hflag]
  refine ⟨key, hscan, s4, ?_, ?_⟩
  · intro hall
    cases hc : (checkCollisions g).isGameOver with
    | false => rfl
    | true =>
      obtain ⟨⟨e, he, hov⟩, -⟩ := key.1 hc
      rw [hall e he] at hov
      cases hov
  · intro hpos
    cases hc : (checkCollisions g).isGameOver with
    | false => rfl
    | true =>
      obtain ⟨-, hle⟩ := key.1 hc
      exact absurd hpos (not_lt.2 hle)

/-- Witness of C13: with 10 hp and one overlapping enemy the pass ends with 0 hp and the
flag set. -/
theorem C13_checkCollisions_sets_gameOver_witness :
    (collisionSample ℚ 10).isGameOver = false ∧
    ((checkCollisions (collisionSample ℚ 10)).componentManager.getComponent .health 0).1 =
      some ⟨0⟩ ∧
    (checkCollisions (collisionSample ℚ 10)).isGameOver = true := by
  have h := C13_checkCollisions_sets_gameOver (collisionSample ℚ 10) ⟨⟨0, 0⟩, 0, ⟨20, 20⟩⟩
    ⟨ShapeType.Circle, Color.Green, 20⟩ ⟨10⟩ rfl rfl rfl rfl
  have hf : (collisionSample ℚ 10).entityManager.getEntities.filter
      (overlapsPlayer (collisionSample ℚ 10).componentManager ⟨⟨0, 0⟩, 0, ⟨20, 20⟩⟩
        ⟨ShapeType.Circle, Color.Green, 20⟩) = [1] := collisionSample_filter 10
  refine ⟨rfl, ?_, ?_⟩
  · have hs := h.2.2.1 (Or.inr (collisionSample_overlaps 10).1)
    rw [hf] at hs
    exact hs.trans (by decide)
  · refine h.1.2 ⟨⟨1, by decide, (collisionSample_overlaps 10).2.1⟩, ?_⟩
    rw [hf]
    decide

/-! ## The invariant of the reachable states -/

/-- A system that keeps the registry, the player id and the presence of every component
keeps the invariant. -/
theorem Game.Invariant_of_presence {F : Type} {g g' : Game F}
    (hem : g'.entityManager = g.entityManager) (hp : g'.player = g.player)
    (hs : ∀ (K : Kind) (e : Entity),
      (g'.componentManager.inner K e).isSome = (g.componentManager.inner K e).isSome)
    (h : g.Invariant) : g'.Invariant := by
  obtain ⟨h1, h2, h3, h4, h5, h6⟩ := h
  simp only [ComponentManager.getComponent_fst] at h3 h4 h5 h6
  unfold Game.Invariant
  simp only [ComponentManager.getComponent_fst, hem, hp, hs]
  refine ⟨h1, h2, h3, h4, ?_, h6⟩
  have := hs Kind.enemyTag g.player
  rw [h5] at this
  cases hx : g'.componentManager.inner Kind.enemyTag g.player with
  | none => rfl
  | some t => rw [hx] at this; cases this

theorem Game.Invariant_of_unchangedFrom {F : Type} {g g' : Game F}
    (hu : g'.unchangedFrom g) (h : g.Invariant) : g'.Invariant :=
  Game.Invariant_of_presence hu.1 hu.2.2.1
    (fun K e => by
      have := hu.2.2.2.2 K e
      simp only [ComponentManager.getComponent_fst] at this
      rw [this]) h

section
variable {F : Type} [LinearOrderedField F]
open ComponentManager

theorem handleInput_isSome (g : Game F) (keys : Keyboard) (K : Kind) (e : Entity) :
    ((handleInput g keys).componentManager.inner K e).isSome =
      (g.componentManager.inner K e).isSome := by
  by_cases hK : K = Kind.velocity
  · subst hK
    by_cases he : e = g.player
    · subst he
      rw [handleInput_inner_player]
      cases g.componentManager.inner Kind.velocity g.player <;> rfl
    · rw [handleInput_inner_entity g keys e he]
  · rw [handleInput_inner_kind g keys K hK]

theorem updateMovementStep_isSome (dt : F) (cm : ComponentManager F) (a : Entity) (K : Kind)
    (e : Entity) :
    ((updateMovementStep dt cm a).inner K e).isSome = (cm.inner K e).isSome := by
  by_cases hK : K = Kind.transform
  · subst hK
    by_cases he : e = a
    · subst he
      rw [updateMovementStep_inner_self]
      cases cm.inner Kind.transform e with
      | none => rfl
      | some t =>
        cases cm.inner Kind.velocity e with
        | none => rfl
        | some v => cases cm.inner Kind.playerTag e <;> rfl
    · rw [updateMovementStep_inner_entity dt cm a e he]
  · rw [updateMovementStep_inner_kind dt cm a K hK]

theorem updateMovement_isSome (g : Game F) (dt : F) (K : Kind) (e : Entity) :
    ((updateMovement g dt).componentManager.inner K e).isSome =
      (g.componentManager.inner K e).isSome := by
  unfold updateMovement
  simp only
  generalize g.componentManager = cm
  induction g.entityManager.getEntities generalizing cm with
  | nil => rfl
  | cons a l ih => rw [List.foldl_cons, ih, updateMovementStep_isSome]

theorem updateEnemyAIStep_isSome (sqrt : F → F) (pt : Transform F) (cm : ComponentManager F)
    (a : Entity) (K : Kind) (e : Entity) :
    ((updateEnemyAIStep sqrt pt cm a).inner K e).isSome = (cm.inner K e).isSome := by
  by_cases hK : K = Kind.velocity
  · subst hK
    by_cases he : e = a
    · subst he
      rw [updateEnemyAIStep_inner_self]
      cases cm.inner Kind.enemyTag e with
      | none => rfl
      | some t =>
        cases cm.inner Kind.transform e with
        | none => rfl
        | some v =>
          cases cm.inner Kind.velocity e with
          | none => rfl
          | some w =>
            simp only
            split_ifs <;> rfl
    · rw [updateEnemyAIStep_inner_entity sqrt pt cm a e he]
  · rw [updateEnemyAIStep_inner_kind sqrt pt cm a K hK]

theorem updateEnemyAI_fields (sqrt : F → F) (g : Game F) :
    (updateEnemyAI sqrt g).entityManager = g.entityManager ∧
    (updateEnemyAI sqrt g).enemySpawnTimer = g.enemySpawnTimer ∧
    (updateEnemyAI sqrt g).player = g.player ∧
    (updateEnemyAI sqrt g).isGameOver = g.isGameOver := by
  unfold updateEnemyAI
  simp only [getComponent_eq]
  split <;> exact ⟨rfl, rfl, rfl, rfl⟩

theorem updateEnemyAI_isSome (sqrt : F → F) (g : Game F) (K : Kind) (e : Entity) :
    ((updateEnemyAI sqrt g).componentManager.inner K e).isSome =
      (g.componentManager.inner K e).isSome := by
  cases hpt : g.componentManager.inner Kind.transform g.player with
  | none =>
    have := (updateEnemyAI_unchangedFrom sqrt g hpt).2.2.2.2 K e
    simp only [getComponent_fst] at this
    rw [this]
  | some pt =>
    rw [updateEnemyAI_componentManager sqrt g pt hpt]
    have : ∀ (l : List Entity) (cm : ComponentManager F),
        ((l.foldl (updateEnemyAIStep sqrt pt) cm).inner K e).isSome =
          (cm.inner K e).isSome := by
      intro l
      induction l with
      | nil => intro cm; rfl
      | cons a l ih =>
        intro cm
        rw [List.foldl_cons, ih, updateEnemyAIStep_isSome]
    rw [this, inner_touch]

end

section
variable {F : Type} [LinearOrderedField F]
open ComponentManager

theorem spawnEnemies_fields (g : Game F) (dt : F) (side : Int) (c : F) :
    (spawnEnemies g dt side c).player = g.player ∧
    (spawnEnemies g dt side c).isGameOver = g.isGameOver := by
  by_cases hge : g.enemySpawnTimer + dt ≥ 2
  · rw [spawnEnemies_of_ge g dt side c hge]
    exact ⟨rfl, rfl⟩
  · rw [spawnEnemies_of_lt g dt side c (not_le.1 hge)]
    exact ⟨rfl, rfl⟩

theorem spawnEnemies_invariant (g : Game F) (dt : F) (side : Int) (c : F)
    (h : g.Invariant) : (spawnEnemies g dt side c).Invariant := by
  by_cases hge : g.enemySpawnTimer + dt ≥ 2
  · obtain ⟨h1, h2, h3, h4, h5, h6⟩ := h
    simp only [getComponent_fst, EntityManager.getEntities] at h1 h2 h3 h4 h5 h6
    have hpn : g.player ≠ g.entityManager.nextEntity := Nat.ne_of_lt (h2 _ h1)
    have hother : ∀ (K : Kind) (e : Entity), e ≠ g.entityManager.nextEntity →
        (spawnEnemies g dt side c).componentManager.inner K e = g.componentManager.inner K e := by
      intro K e he
      rw [spawnEnemies_of_ge g dt side c hge]
      exact createEnemy_inner_entity { g with enemySpawnTimer := g.enemySpawnTimer + dt }
        side c K e he
    have hnew := createEnemy_inner_new { g with enemySpawnTimer := g.enemySpawnTimer + dt }
      side c
    have hem : (spawnEnemies g dt side c).entityManager =
        ⟨g.entityManager.entities ++ [g.entityManager.nextEntity],
          g.entityManager.nextEntity + 1⟩ := by
      rw [spawnEnemies_of_ge g dt side c hge]
      rfl
    have hplayer : (spawnEnemies g dt side c).player = g.player :=
      (spawnEnemies_fields g dt side c).1
    unfold Game.Invariant
    simp only [getComponent_fst, EntityManager.getEntities, hem, hplayer]
    refine ⟨?_, ?_, ?_, ?_, ?_, ?_⟩
    · exact List.mem_append_left _ h1
    · intro x hx
      rcases List.mem_append.1 hx with hx | hx
      · exact Nat.lt_succ_of_lt (h2 x hx)
      · rw [List.mem_singleton.1 hx]; exact Nat.lt_succ_self _
    · intro K e hs
      by_cases he : e = g.entityManager.nextEntity
      · rw [he]; simp
      · rw [hother K e he] at hs
        exact List.mem_append_left _ (h3 K e hs)
    · intro K hK
      rw [hother K g.player hpn]
      exact h4 K hK
    · rw [hother Kind.enemyTag g.player hpn]
      exact h5
    · intro e hs
      by_cases he : e = g.entityManager.nextEntity
      · subst he
        rw [spawnEnemies_of_ge g dt side c hge] at hs
        have h6' := hnew.2.2.2.2.2
        simp only at h6' hs
        rw [h6'] at hs
        exact h6 _ hs
      · rw [hother Kind.playerTag e he] at hs
        exact h6 e hs
  · rw [spawnEnemies_of_lt g dt side c (not_le.1 hge)]
    exact Game.Invariant_of_presence rfl rfl (fun _ _ => rfl) h

theorem checkCollisions_fields (g : Game F) :
    (checkCollisions g).player = g.player ∧
    (checkCollisions g).enemySpawnTimer = g.enemySpawnTimer ∧
    (checkCollisions g).entityManager.nextEntity = g.entityManager.nextEntity := by
  cases hpt : g.componentManager.inner Kind.transform g.player with
  | none =>
    have := checkCollisions_unchangedFrom g (Or.inl hpt)
    exact ⟨this.2.2.1, this.2.1, by rw [this.1]⟩
  | some pt =>
    cases hps : g.componentManager.inner Kind.shape g.player with
    | none =>
      have := checkCollisions_unchangedFrom g (Or.inr (Or.inl hps))
      exact ⟨this.2.2.1, this.2.1, by rw [this.1]⟩
    | some ps =>
      cases hph : g.componentManager.inner Kind.health g.player with
      | none =>
        have := checkCollisions_unchangedFrom g (Or.inr (Or.inr hph))
        exact ⟨this.2.2.1, this.2.1, by rw [this.1]⟩
      | some ph =>
        obtain ⟨s1, -, -, -, -, s6, s7⟩ := checkCollisions_spec g pt ps ph hpt hps hph
        exact ⟨s7, s6, by rw [s1]⟩

theorem checkCollisions_invariant (g : Game F) (h : g.Invariant) :
    (checkCollisions g).Invariant := by
  obtain ⟨h1, h2, h3, h4, h5, h6⟩ := h
  simp only [getComponent_fst, EntityManager.getEntities] at h1 h2 h3 h4 h5 h6
  obtain ⟨pt, hpt⟩ := Option.isSome_iff_exists.1 (h4 Kind.transform (by decide))
  obtain ⟨ps, hps⟩ := Option.isSome_iff_exists.1 (h4 Kind.shape (by decide))
  obtain ⟨ph, hph⟩ := Option.isSome_iff_exists.1 (h4 Kind.health (by decide))
  obtain ⟨s1, s2, s3, s4, -, -, s7⟩ := checkCollisions_spec g pt ps ph hpt hps hph
  have hpov : overlapsPlayer g.componentManager pt ps g.player = false :=
    overlapsPlayer_of_no_enemyTag _ pt ps _ h5
  have hlive : ∀ e : Entity, e ∈ (checkCollisions g).entityManager.entities ↔
      e ∈ g.entityManager.entities ∧ overlapsPlayer g.componentManager pt ps e = false := by
    intro e
    rw [s1]
    simp [List.mem_filter]
  have hcase : ∀ e : Entity,
      (e ∈ g.entityManager.entities ∧ overlapsPlayer g.componentManager pt ps e = true) ∨
      (e ∉ g.entityManager.entities ∨ overlapsPlayer g.componentManager pt ps e = false) := by
    intro e
    by_cases he : e ∈ g.entityManager.entities
    · cases hov : overlapsPlayer g.componentManager pt ps e with
      | true => exact Or.inl ⟨he, rfl⟩
      | false => exact Or.inr (Or.inr rfl)
    · exact Or.inr (Or.inl he)
  unfold Game.Invariant
  simp only [getComponent_fst, EntityManager.getEntities, s7]
  refine ⟨?_, ?_, ?_, ?_, ?_, ?_⟩
  · exact (hlive _).2 ⟨h1, hpov⟩
  · intro x hx
    rw [s1]
    exact h2 x ((hlive x).1 hx).1
  · intro K e hs
    rcases hcase e with ⟨he, hov⟩ | hkeep
    · rw [s2 K e he hov] at hs
      cases hs
    · by_cases hKe : K ≠ Kind.health ∨ e ≠ g.player
      · rw [s3 K e hkeep hKe] at hs
        have hin := h3 K e hs
        rcases hkeep with hnot | hov
        · exact absurd hin hnot
        · exact (hlive e).2 ⟨hin, hov⟩
      · push_neg at hKe
        rw [hKe.2]
        exact (hlive _).2 ⟨h1, hpov⟩
  · intro K hK
    by_cases hKh : K = Kind.health
    · subst hKh
      rw [s4 (Or.inr hpov)]
      rfl
    · rw [s3 K g.player (Or.inr hpov) (Or.inl hKh)]
      exact h4 K hK
  · rw [s3 Kind.enemyTag g.player (Or.inr hpov) (Or.inl (by decide))]
    exact h5
  · intro e hs
    rcases hcase e with ⟨he, hov⟩ | hkeep
    · rw [s2 Kind.playerTag e he hov] at hs
      cases hs
    · rw [s3 Kind.playerTag e hkeep (Or.inl (by decide))] at hs
      exact h6 e hs

/-- The state `checkCollisions` receives in a frame, after the four systems that run
before it, satisfies the invariant when the state at the start of the frame does. -/
theorem beforeCollisions_invariant (sqrt : F → F) (keys : Keyboard) (dt : F) (side : Int)
    (c : F) (g : Game F) (h : g.Invariant) :
    (spawnEnemies (updateEnemyAI sqrt (updateMovement (handleInput g keys) dt)) dt side
      c).Invariant := by
  apply spawnEnemies_invariant
  apply Game.Invariant_of_presence (updateEnemyAI_fields sqrt _).1
    (updateEnemyAI_fields sqrt _).2.2.1 (updateEnemyAI_isSome sqrt _)
  have hmove : (handleInput g keys).Invariant →
      (updateMovement (handleInput g keys) dt).Invariant :=
    Game.Invariant_of_presence rfl rfl (updateMovement_isSome (handleInput g keys) dt)
  apply hmove
  exact Game.Invariant_of_presence (handleInput_fields g keys).1
    (handleInput_fields g keys).2.2.1 (handleInput_isSome g keys) h

theorem frame_invariant (sqrt : F → F) (keys : Keyboard) (dt : F) (side : Int) (c : F)
    (g : Game F) (h : g.Invariant) : (frame sqrt keys dt side c g).Invariant := by
  unfold frame
  apply Game.Invariant_of_unchangedFrom
    (Game.unchangedFrom_trans (render_unchangedFrom _) (updateDebugOverlay_unchangedFrom _))
  split
  · exact h
  · apply checkCollisions_invariant
    apply spawnEnemies_invariant
    apply Game.Invariant_of_presence (updateEnemyAI_fields sqrt _).1
      (updateEnemyAI_fields sqrt _).2.2.1 (updateEnemyAI_isSome sqrt _)
    have hmove : (handleInput g keys).Invariant →
        (updateMovement (handleInput g keys) dt).Invariant :=
      Game.Invariant_of_presence rfl rfl (updateMovement_isSome (handleInput g keys) dt)
    apply hmove
    exact Game.Invariant_of_presence (handleInput_fields g keys).1
      (handleInput_fields g keys).2.2.1 (handleInput_isSome g keys) h

theorem frame_player (sqrt : F → F) (keys : Keyboard) (dt : F) (side : Int) (c : F)
    (g : Game F) : (frame sqrt keys dt side c g).player = g.player := by
  unfold frame
  show (if g.isGameOver = true then g else _).player = g.player
  split
  · rfl
  · rw [(checkCollisions_fields _).1, (spawnEnemies_fields _ dt side c).1,
      (updateEnemyAI_fields sqrt _).2.2.1]
    exact (handleInput_fields g keys).2.2.1

theorem runFrames_invariant (sqrt : F → F) (inputs : List (FrameInput F)) (g : Game F)
    (h : g.Invariant) : (runFrames sqrt inputs g).Invariant := by
  induction inputs generalizing g with
  | nil => exact h
  | cons i is ih =>
    exact ih _ (frame_invariant sqrt i.keys i.deltaTime i.spawnSide i.coordinate g h)

theorem runFrames_player (sqrt : F → F) (inputs : List (FrameInput F)) (g : Game F) :
    (runFrames sqrt inputs g).player = g.player := by
  induction inputs generalizing g with
  | nil => rfl
  | cons i is ih =>
    exact (ih _).trans (frame_player sqrt i.keys i.deltaTime i.spawnSide i.coordinate g)

theorem initial_invariant : (Game.initial : Game F).Invariant := by
  have hadd : ∀ (cm : ComponentManager F) (K' : Kind) (v : Component F K') (K : Kind)
      (e : Entity), e ≠ 0 → (cm.addComponent K' 0 v).inner K e = cm.inner K e := by
    intro cm K' v K e he
    by_cases hK : K = K'
    · subst hK
      exact inner_addComponent_entity cm K _ e v he
    · rw [inner_addComponent_kind cm K' K _ v hK]
  unfold Game.Invariant
  simp only [getComponent_fst, EntityManager.getEntities]
  refine ⟨?_, ?_, ?_, ?_, ?_, ?_⟩
  · show (0 : Entity) ∈ [0]
    simp
  · intro x hx
    have hx' : x ∈ ([0] : List Entity) := hx
    have : x = 0 := by simpa using hx'
    rw [this]
    exact Nat.zero_lt_one
  · intro K e hs
    show e ∈ ([0] : List Entity)
    by_cases he : e = 0
    · rw [he]; simp
    · exfalso
      have : (Game.initial : Game F).componentManager.inner K e = none := by
        simp only [Game.initial, createPlayer, EntityManager.createEntity,
          EntityManager.fresh, hadd _ _ _ K e he]
        rfl
      rw [this] at hs
      cases hs
  · intro K hK
    cases K with
    | enemyTag => exact absurd rfl hK
    | transform => rfl
    | velocity => rfl
    | shape => rfl
    | health => rfl
    | playerTag => rfl
  · rfl
  · intro e hs
    show e = 0
    by_contra he
    have : (Game.initial : Game F).componentManager.inner Kind.playerTag e = none := by
      simp only [Game.initial, createPlayer, EntityManager.createEntity,
        EntityManager.fresh, hadd _ _ _ Kind.playerTag e he]
      rfl
    rw [this] at hs
    cases hs

end

/-- C17: in every state reached from the state the constructor builds by any number of
frames, whatever the steps, keys and random draws, the player is the entity created by
the constructor, is in the live list, has Transform, Shape, Health, Velocity and
PlayerTag and no EnemyTag, and is the only entity carrying PlayerTag. -/
theorem C17_player_never_destroyed {F : Type} [LinearOrderedField F] (sqrt : F → F)
    (inputs : List (FrameInput F)) :
    (runFrames sqrt inputs Game.initial).player = (Game.initial : Game F).player ∧
    (runFrames sqrt inputs Game.initial).player ∈
      (runFrames sqrt inputs Game.initial).entityManager.getEntities ∧
    (∃ t : Transform F,
      ((runFrames sqrt inputs Game.initial).componentManager.getComponent .transform
        (runFrames sqrt inputs Game.initial).player).1 = some t) ∧
    (∃ s : Shape F,
      ((runFrames sqrt inputs Game.initial).componentManager.getComponent .shape
        (runFrames sqrt inputs Game.initial).player).1 = some s) ∧
    (∃ h : Health,
      ((runFrames sqrt inputs Game.initial).componentManager.getComponent .health
        (runFrames sqrt inputs Game.initial).player).1 = some h) ∧
    (∃ v : Velocity F,
      ((runFrames sqrt inputs Game.initial).componentManager.getComponent .velocity
        (runFrames sqrt inputs Game.initial).player).1 = some v) ∧
    ((runFrames sqrt inputs Game.initial).componentManager.getComponent .playerTag
      (runFrames sqrt inputs Game.initial).player).1 = some ⟨⟩ ∧
    ((runFrames sqrt inputs Game.initial).componentManager.getComponent .enemyTag
      (runFrames sqrt inputs Game.initial).player).1 = none ∧
    ∀ e : Entity,
      ((runFrames sqrt inputs Game.initial).componentManager.getComponent
        .playerTag e).1.isSome = true →
      e = (runFrames sqrt inputs Game.initial).player := by
  obtain ⟨h1, -, -, h4, h5, h6⟩ := runFrames_invariant sqrt inputs _ (initial_invariant (F := F))
  refine ⟨runFrames_player sqrt inputs _, h1,
    Option.isSome_iff_exists.1 (h4 Kind.transform (by decide)),
    Option.isSome_iff_exists.1 (h4 Kind.shape (by decide)),
    Option.isSome_iff_exists.1 (h4 Kind.health (by decide)),
    Option.isSome_iff_exists.1 (h4 Kind.velocity (by decide)), ?_, h5, h6⟩
  obtain ⟨p, hp⟩ := Option.isSome_iff_exists.1 (h4 Kind.playerTag (by decide))
  rw [hp]

/-- Witness of C17: after a frame of 3 seconds with W and D pressed, which spawns an
enemy, entity 0 carries the PlayerTag and is the player. -/
theorem C17_player_never_destroyed_witness :
    ((runFrames (fun x => x)
        [⟨⟨true, false, false, false, false, false, true, false⟩, 3, 0, 100⟩]
        (Game.initial : Game ℚ)).componentManager.getComponent .playerTag 0).1.isSome
      = true ∧
    (0 : Entity) = (runFrames (fun x => x)
        [⟨⟨true, false, false, false, false, false, true, false⟩, 3, 0, 100⟩]
        (Game.initial : Game ℚ)).player := by
  have h := C17_player_never_destroyed (fun x => x)
    [(⟨⟨true, false, false, false, false, false, true, false⟩, 3, 0, 100⟩ : FrameInput ℚ)]
  have hp : (runFrames (fun x => x)
      [⟨⟨true, false, false, false, false, false, true, false⟩, 3, 0, 100⟩]
      (Game.initial : Game ℚ)).player = 0 := h.1
  have htag : ((runFrames (fun x => x)
      [⟨⟨true, false, false, false, false, false, true, false⟩, 3, 0, 100⟩]
      (Game.initial : Game ℚ)).componentManager.getComponent .playerTag 0).1.isSome
        = true := by
    have := h.2.2.2.2.2.2.1
    rw [hp] at this
    rw [this]
    rfl
  exact ⟨htag, h.2.2.2.2.2.2.2.2 0 htag⟩

/-- C19: in every state reached from the state the constructor builds by any number of
frames, whatever the steps, keys and random draws, an entity for which the store holds a
component of any kind is in the live list. -/
theorem C19_no_orphan_components {F : Type} [LinearOrderedField F] (sqrt : F → F)
    (inputs : List (FrameInput F)) (K : Kind) (e : Entity)
    (h : ((runFrames sqrt inputs Game.initial).componentManager.getComponent K e).1.isSome
      = true) :
    e ∈ (runFrames sqrt inputs Game.initial).entityManager.getEntities :=
  (runFrames_invariant sqrt inputs _ (initial_invariant (F := F))).2.2.1 K e h

/-- Witness of C19: after a frame of 3 seconds with W and D pressed, entity 0 has a Health
and is live. -/
theorem C19_no_orphan_components_witness :
    ((runFrames (fun x => x)
        [⟨⟨true, false, false, false, false, false, true, false⟩, 3, 0, 100⟩]
        (Game.initial : Game ℚ)).componentManager.getComponent .health 0).1.isSome
      = true ∧
    (0 : Entity) ∈ (runFrames (fun x => x)
        [⟨⟨true, false, false, false, false, false, true, false⟩, 3, 0, 100⟩]
        (Game.initial : Game ℚ)).entityManager.getEntities := by
  have hs : ((runFrames (fun x => x)
      [⟨⟨true, false, false, false, false, false, true, false⟩, 3, 0, 100⟩]
      (Game.initial : Game ℚ)).componentManager.getComponent .health 0).1.isSome
        = true := by
    have h4 := (runFrames_invariant (fun x => x)
      [(⟨⟨true, false, false, false, false, false, true, false⟩, 3, 0, 100⟩ : FrameInput ℚ)]
      _ (initial_invariant (F := ℚ))).2.2.2.1 Kind.health (by decide)
    have hp := runFrames_player (fun x => x)
      [(⟨⟨true, false, false, false, false, false, true, false⟩, 3, 0, 100⟩ : FrameInput ℚ)]
      (Game.initial : Game ℚ)
    rw [hp] at h4
    exact h4
  exact ⟨hs, C19_no_orphan_components (fun x => x) _ Kind.health 0 hs⟩

end SurvivalGame
